import Mathlib

/-!
Verification development for the ExcelCleanup repository
(`src/convert_excel.py`): a shallow embedding of the record
normalization, validation, date-disambiguation, tag derivation and
deduplication/classification pipeline, together with theorems checking
the natural-language specification against it.

Conventions of the embedding:
* Python `str` values become `String` (processed as `List Char`), cell
  values that may be missing (`None` / `pd.NA` / `NaT`) become `Option _`.
* `pandas` dataframes become `List Rec` where `Rec` carries exactly the
  columns the pipeline reads or writes.
* Machine-independent arithmetic is over `Nat`.
* Fallible code (Python functions that raise and whose callers catch
  `ValueError`) returns `Option _`.
* The `jdatetime` library is an external collaborator; its validity and
  conversion rules are modelled from the spec (section 4.4, step 6),
  and those definitions carry a `Modelled from the spec` doc comment.
-/

/-- Translation table `PERSIAN_DIGIT_MAP` (source line 35): maps the ten
extended Arabic-Indic digits and the ten Arabic-Indic digits to ASCII. -/
def persianDigitTr (c : Char) : Char :=
  if c = '۰' then '0' else if c = '۱' then '1' else if c = '۲' then '2'
  else if c = '۳' then '3' else if c = '۴' then '4' else if c = '۵' then '5'
  else if c = '۶' then '6' else if c = '۷' then '7' else if c = '۸' then '8'
  else if c = '۹' then '9'
  else if c = '٠' then '0' else if c = '١' then '1' else if c = '٢' then '2'
  else if c = '٣' then '3' else if c = '٤' then '4' else if c = '٥' then '5'
  else if c = '٦' then '6' else if c = '٧' then '7' else if c = '٨' then '8'
  else if c = '٩' then '9' else c

/-- A character counted as a decimal digit by Python's unicode-aware
regex classes (restricted to the scripts occurring in this pipeline:
ASCII plus the two Arabic-Indic ranges). -/
def isUnicodeDigit (c : Char) : Bool :=
  c.isDigit || persianDigitTr c ≠ c

/-- Numeric value of a digit character accepted by `isUnicodeDigit`. -/
def charDigitVal (c : Char) : Nat :=
  (persianDigitTr c).toNat - '0'.toNat

/-- Python `str.strip()` on a character list: drop whitespace at both
ends. -/
def trimL (l : List Char) : List Char :=
  ((l.dropWhile Char.isWhitespace).reverse.dropWhile Char.isWhitespace).reverse

/-- ASCII lowercasing of one character; models Python `str.casefold`,
which agrees with ASCII lowercasing on every string this pipeline
compares. -/
def lowerCh (c : Char) : Char :=
  if 'A' ≤ c ∧ c ≤ 'Z' then Char.ofNat (c.toNat + 32) else c

/-- Lowercase a character list. -/
def lowerL (l : List Char) : List Char := l.map lowerCh

/-- `normalize_digits` (source lines 203-209) on the underlying
character list: `None`/`NaN` and blank/"nan"/"none" cells become the
empty list, everything else is stripped and digit-translated. -/
def normDigitsL : Option String → List Char
  | none => []
  | some v =>
    let t := trimL v.toList
    if t = [] then []
    else if lowerL t = ['n', 'a', 'n'] ∨ lowerL t = ['n', 'o', 'n', 'e'] then []
    else t.map persianDigitTr

/-- `normalize_digits` (source lines 203-209). -/
def normalize_digits (value : Option String) : String :=
  String.mk (normDigitsL value)

/-- Translation table `LETTER_NORMALIZATION_MAP` (source line 110). -/
def letterTr (c : Char) : Char :=
  if c = 'ي' then 'ی' else if c = 'ك' then 'ک' else c

/-- Collapse every maximal run of whitespace to a single space,
modelling `re.sub(r"\s+", " ", _)` (source line 217).  The Boolean
argument records whether the previous character was whitespace. -/
def collapseWSAux : Bool → List Char → List Char
  | _, [] => []
  | prevWs, c :: rest =>
    if c.isWhitespace then
      if prevWs then collapseWSAux true rest
      else ' ' :: collapseWSAux true rest
    else c :: collapseWSAux false rest

/-- `normalize_farsi_text` (source lines 212-218) on character lists. -/
def normFarsiL (value : Option String) : List Char :=
  let text := normDigitsL value
  if text = [] then []
  else trimL (collapseWSAux false (text.map letterTr))

/-- `normalize_farsi_text` (source lines 212-218). -/
def normalize_farsi_text (value : Option String) : String :=
  String.mk (normFarsiL value)

/-- The digit string extracted by `re.sub(r"\D", "", normalize_digits(value))`
(source lines 467 and 485). -/
def digitsOf (value : Option String) : List Char :=
  (normDigitsL value).filter isUnicodeDigit

/-- `clean_national_id` (source lines 466-481), translated branch by
branch; `pd.NA` becomes `none`.  `len(set(digits))` is the number of
distinct characters, i.e. `List.dedup` length. -/
def clean_national_id (value : Option String) : Option String :=
  let digits := digitsOf value
  if digits.length < 8 ∨ digits.length > 11 then none
  else if digits.dedup.length = 1 then none
  else if 8 ≤ digits.length ∧ digits.length ≤ 11 ∧ 1 < digits.dedup.length then
    some (String.mk digits)
  else none

/-- First prefix rewrite of `clean_mobile` (source lines 491-492):
`98` + 10 digits becomes `0` + 10 digits. -/
def mobileStep1 (ds : List Char) : List Char :=
  if ds.take 2 = ['9', '8'] ∧ ds.length = 12 then '0' :: ds.drop 2 else ds

/-- Second prefix rewrite of `clean_mobile` (source lines 493-494):
`0098` + 10 digits becomes `0` + 10 digits. -/
def mobileStep2 (ds : List Char) : List Char :=
  if ds.take 4 = ['0', '0', '9', '8'] ∧ ds.length = 14 then '0' :: ds.drop 4 else ds

/-- Third rewrite of `clean_mobile` (source lines 495-496): a 10-digit
number not starting with `0` is left-padded with `0`. -/
def mobileStep3 (ds : List Char) : List Char :=
  if ds.length = 10 ∧ ds.take 1 ≠ ['0'] then '0' :: ds else ds

/-- Acceptance branches of `clean_mobile` (source lines 499-508),
translated in order. -/
def mobileAccept (ds : List Char) : Option String :=
  if ds.length = 11 ∧ ds.take 2 = ['0', '9'] then some (String.mk ds)
  else if ds.length = 10 ∧ ds.take 1 = ['9'] then some (String.mk ('0' :: ds))
  else if ds.length = 10 then some (String.mk ds)
  else if ds.length = 11 then some (String.mk ds)
  else none

/-- Core of `clean_mobile` (source lines 486-508) on the
already-extracted digit characters. -/
def cleanMobileDigits (ds0 : List Char) : Option String :=
  if ds0 = [] then none
  else mobileAccept (mobileStep3 (mobileStep2 (mobileStep1 ds0)))

/-- `clean_mobile` (source lines 484-508). -/
def clean_mobile (value : Option String) : Option String :=
  cleanMobileDigits (digitsOf value)


-- ===== calendar model =====

/-- Modelled from the spec (section 4.4, step 6): the external
`jdatetime` collaborator's calendars.  `gregLeap` is the Gregorian
leap-year table. -/
def gregLeap (y : Nat) : Bool :=
  (y % 4 == 0 && y % 100 != 0) || y % 400 == 0

def jalaliLeap (y : Nat) : Bool :=
  y % 33 == 1 || y % 33 == 5 || y % 33 == 9 || y % 33 == 13 ||
  y % 33 == 17 || y % 33 == 22 || y % 33 == 26 || y % 33 == 30

def jalaliMonthLen (y m : Nat) : Nat :=
  if m ≤ 6 then 31 else if m ≤ 11 then 30 else if jalaliLeap y then 30 else 29

def gregMonthLenB (leap : Bool) (m : Nat) : Nat :=
  if m = 1 then 31 else if m = 2 then (if leap then 29 else 28)
  else if m = 3 then 31 else if m = 4 then 30 else if m = 5 then 31
  else if m = 6 then 30 else if m = 7 then 31 else if m = 8 then 31
  else if m = 9 then 30 else if m = 10 then 31 else if m = 11 then 30
  else if m = 12 then 31 else 0

def gregMonthLen (y m : Nat) : Nat := gregMonthLenB (gregLeap y) m

def jalaliValidB (y m d : Nat) : Bool :=
  1 ≤ m && m ≤ 12 && 1 ≤ d && d ≤ jalaliMonthLen y m

def gregValidB (y m d : Nat) : Bool :=
  1 ≤ y && y ≤ 9999 && 1 ≤ m && m ≤ 12 && 1 ≤ d && d ≤ gregMonthLen y m

def extractMonth : List Nat → Nat → Nat → Nat × Nat
  | [], acc, rem => (acc, rem)
  | len :: rest, acc, rem => if rem < len then (acc, rem) else extractMonth rest (acc + 1) (rem - len)

def gregMonthsList (leap : Bool) : List Nat :=
  [31, if leap then 29 else 28, 31, 30, 31, 30, 31, 31, 30, 31, 30]

def jMonthsList : List Nat := [31, 31, 31, 31, 31, 31, 30, 30, 30, 30, 30]

def jDaysBefore (m : Nat) : Nat :=
  if m ≤ 7 then (m - 1) * 31 else 186 + (m - 7) * 30

def gDaysBefore (m : Nat) : Nat :=
  if m = 1 then 0 else if m = 2 then 31 else if m = 3 then 59 else if m = 4 then 90
  else if m = 5 then 120 else if m = 6 then 151 else if m = 7 then 181
  else if m = 8 then 212 else if m = 9 then 243 else if m = 10 then 273
  else if m = 11 then 304 else 334

def jalaliPack (jy jm jd : Nat) : Nat :=
  365 * (jy - 979) + ((jy - 979) / 33) * 8 + ((jy - 979) % 33 + 3) / 4
    + jDaysBefore jm + (jd - 1)

def g4Stage (gy rem : Nat) (leap : Bool) : Nat × Nat × Bool :=
  if 366 ≤ rem % 1461 then
    (gy + 4 * (rem / 1461) + (rem % 1461 - 1) / 365, (rem % 1461 - 1) % 365, false)
  else (gy + 4 * (rem / 1461), rem % 1461, leap)

def gYearRem (n : Nat) : Nat × Nat × Bool :=
  if 36525 ≤ n % 146097 then
    if 365 ≤ (n % 146097 - 1) % 36524 then
      g4Stage (1600 + 400 * (n / 146097) + 100 * ((n % 146097 - 1) / 36524))
        ((n % 146097 - 1) % 36524 + 1) true
    else
      g4Stage (1600 + 400 * (n / 146097) + 100 * ((n % 146097 - 1) / 36524))
        ((n % 146097 - 1) % 36524) false
  else g4Stage (1600 + 400 * (n / 146097)) (n % 146097) true

def gregFromDayNo (n : Nat) : Nat × Nat × Nat :=
  ((gYearRem n).1,
   (extractMonth (gregMonthsList (gYearRem n).2.2) 1 (gYearRem n).2.1).1,
   (extractMonth (gregMonthsList (gYearRem n).2.2) 1 (gYearRem n).2.1).2 + 1)

def j2gTriple (jy jm jd : Nat) : Nat × Nat × Nat :=
  gregFromDayNo (jalaliPack jy jm jd + 79)

def gregYearDays (gy : Nat) : Nat :=
  365 * (gy - 1600) + (gy - 1600 + 3) / 4 - (gy - 1600 + 99) / 100 + (gy - 1600 + 399) / 400

def gregPack (gy gm gd : Nat) : Nat :=
  gregYearDays gy + gDaysBefore gm + (if 2 < gm ∧ gregLeap gy = true then 1 else 0) + (gd - 1)

def jalaliUnpack (n : Nat) : Nat × Nat × Nat :=
  if 366 ≤ n % 12053 % 1461 then
    (979 + 33 * (n / 12053) + 4 * (n % 12053 / 1461) + (n % 12053 % 1461 - 1) / 365,
     (extractMonth jMonthsList 1 ((n % 12053 % 1461 - 1) % 365)).1,
     (extractMonth jMonthsList 1 ((n % 12053 % 1461 - 1) % 365)).2 + 1)
  else
    (979 + 33 * (n / 12053) + 4 * (n % 12053 / 1461),
     (extractMonth jMonthsList 1 (n % 12053 % 1461)).1,
     (extractMonth jMonthsList 1 (n % 12053 % 1461)).2 + 1)

def g2jTriple (gy gm gd : Nat) : Nat × Nat × Nat :=
  jalaliUnpack (gregPack gy gm gd - 79)

/-- `_is_jalali_date` (source lines 323-336): a triple is Jalali when
the year is in 1300-1500 and the triple is a calendar-valid Jalali
date (the `jdatetime` validity test is modelled by `jalaliValidB`). -/
def is_jalali_date (y m d : Nat) : Bool :=
  if y < 1300 ∨ y > 1500 then false else jalaliValidB y m d

/-- `jalali_to_gregorian` (source lines 230-239).  Modelled from the
spec: the `jdatetime` day-count conversion; `none` models the raised
`ValueError` for an invalid Jalali date.  The model covers the year
window from 979 on, which contains every triple `_is_jalali_date`
admits. -/
def jalali_to_gregorian (jy jm jd : Nat) : Option (Nat × Nat × Nat) :=
  if 979 ≤ jy ∧ jalaliValidB jy jm jd = true then some (j2gTriple jy jm jd) else none

/-- `gregorian_to_jalali` (source lines 427-436).  Modelled from the
spec: the inverse `jdatetime` conversion; `none` models the raised
`ValueError` for an invalid Gregorian date.  The model covers the year
window from 1600 on, which contains the image of every admitted Jalali
triple. -/
def gregorian_to_jalali (gy gm gd : Nat) : Option (Nat × Nat × Nat) :=
  if 1600 ≤ gy ∧ gregValidB gy gm gd = true then some (g2jTriple gy gm gd) else none


-- ===== date parsing model =====

/-- A calendar instant as stored by the pipeline (a `pd.Timestamp`
without timezone, at second precision — the parser never produces
sub-second values). -/
structure DateTime where
  year : Nat
  month : Nat
  day : Nat
  hour : Nat
  minute : Nat
  second : Nat
deriving Repr, DecidableEq

/-- Chronological key of a datetime; the radices exceed each field's
maximum, so the key order is lexicographic field order. -/
def dtKey (y m d h mi s : Nat) : Nat :=
  ((((y * 16 + m) * 32 + d) * 32 + h) * 64 + mi) * 64 + s

/-- Models `pd.Timestamp(datetime(y, m, d, h, mi, s))` under the
`except ValueError` guards of `parse_visit_date`: `datetime` validity
(calendar-valid date in years 1-9999, time fields in range) plus the
pandas `Timestamp` epoch bounds; the bounds' fractional-second
endpoints make the lower bound strict at second precision. -/
def mkDatetime (y m d h mi s : Nat) : Option DateTime :=
  if gregValidB y m d = true ∧ h ≤ 23 ∧ mi ≤ 59 ∧ s ≤ 59 ∧
      dtKey 1677 9 21 0 12 43 < dtKey y m d h mi s ∧
      dtKey y m d h mi s ≤ dtKey 2262 4 11 23 47 16
  then some (DateTime.mk y m d h mi s) else none

/-- Take up to `cap` leading digit characters. -/
def digitRunAux : List Char → Nat → List Char × List Char
  | l, 0 => ([], l)
  | [], _ + 1 => ([], [])
  | c :: rest, cap + 1 =>
    if isUnicodeDigit c then
      ((c :: (digitRunAux rest cap).1), (digitRunAux rest cap).2)
    else ([], c :: rest)

/-- Numeric value of a digit string, as Python `int`. -/
def natOfDigits (ds : List Char) : Nat :=
  ds.foldl (fun a c => a * 10 + charDigitVal c) 0

/-- Match the regex piece `\d{lo,cap}`.  In the visit-date patterns each
digit group is followed by `/`, `:`, whitespace or the end of the
pattern, none of which can match a digit, so the regex's greedy
matching with backtracking coincides with this deterministic
take-the-longest-run-up-to-`cap` matcher. -/
def matchNum (lo cap : Nat) (l : List Char) : Option (Nat × List Char) :=
  if lo ≤ (digitRunAux l cap).1.length then
    some (natOfDigits (digitRunAux l cap).1, (digitRunAux l cap).2)
  else none

/-- Match one literal character. -/
def matchLit (c : Char) : List Char → Option (List Char)
  | [] => none
  | x :: rest => if x = c then some rest else none

/-- Match `\s+`.  The following pattern element is always a digit, so
greedily consuming the whole whitespace run is again equivalent to the
regex. -/
def matchWS : List Char → Option (List Char)
  | [] => none
  | c :: rest =>
    if c.isWhitespace then some ((c :: rest).dropWhile Char.isWhitespace) else none

/-- Match the shared date part `(\d{3,4})/(\d{1,2})/(\d{1,2})` of all
three visit-date patterns. -/
def matchDate (l : List Char) : Option (Nat × Nat × Nat × List Char) :=
  (matchNum 3 4 l).bind fun yr =>
    (matchLit '/' yr.2).bind fun r2 =>
      (matchNum 1 2 r2).bind fun mo =>
        (matchLit '/' mo.2).bind fun r4 =>
          (matchNum 1 2 r4).map fun dy => (yr.1, mo.1, dy.1, dy.2)

/-- Match the time part `\s+(\d{1,2}):(\d{1,2})`. -/
def matchTimeHM (l : List Char) : Option (Nat × Nat × List Char) :=
  (matchWS l).bind fun r1 =>
    (matchNum 1 2 r1).bind fun hr =>
      (matchLit ':' hr.2).bind fun r3 =>
        (matchNum 1 2 r3).map fun mi => (hr.1, mi.1, mi.2)

/-- Attempt of the first datetime pattern
`(\d{3,4})/(\d{1,2})/(\d{1,2})\s+(\d{1,2}):(\d{1,2})` at the head of
`l` (source line 273). -/
def tryP1At (l : List Char) : Option (Nat × Nat × Nat × Nat × Nat) :=
  (matchDate l).bind fun g =>
    (matchTimeHM g.2.2.2).map fun t => (g.1, g.2.1, g.2.2.1, t.1, t.2.1)

/-- Attempt of the second datetime pattern, ending `:(\d{1,2})`
(source line 274). -/
def tryP2At (l : List Char) : Option (Nat × Nat × Nat × Nat × Nat × Nat) :=
  (matchDate l).bind fun g =>
    (matchTimeHM g.2.2.2).bind fun t =>
      (matchLit ':' t.2.2).bind fun r =>
        (matchNum 1 2 r).map fun sc => (g.1, g.2.1, g.2.2.1, t.1, t.2.1, sc.1)

/-- Attempt of the date-only pattern (source line 301). -/
def tryP3At (l : List Char) : Option (Nat × Nat × Nat) :=
  (matchDate l).map fun g => (g.1, g.2.1, g.2.2.1)

/-- `re.search`: try the pattern at every position, leftmost match
first. -/
def searchAt {α : Type} (f : List Char → Option α) : List Char → Option α
  | [] => f []
  | c :: rest =>
    match f (c :: rest) with
    | some g => some g
    | none => searchAt f rest

/-- Map `.` and `-` separators to `/` (source line 263). -/
def dotDashTr (c : Char) : Char :=
  if c = '.' ∨ c = '-' then '/' else c

/-- Text preprocessing of `parse_visit_date` (source lines 261-269):
digit normalization, removal of the zero-width/bidi characters
`\u200c` and `\u200f`, folding `.`/`-` to `/`, stripping, and
re-segmenting a bare 8-digit run as `YYYY/MM/DD`. -/
def preprocessDateText (v : String) : List Char :=
  let t1 := (normDigitsL (some v)).filter fun c => ¬ (c = '\u200c' ∨ c = '\u200f')
  let t2 := trimL (t1.map dotDashTr)
  if t2.length = 8 ∧ t2.all isUnicodeDigit then
    t2.take 4 ++ '/' :: (t2.drop 4).take 2 ++ '/' :: t2.drop 6
  else t2

/-- Calendar disambiguation and instant construction for a parsed
triple (source lines 286-298 and 307-320): a triple accepted by
`_is_jalali_date` is converted with `jalali_to_gregorian` and stored
as a Gregorian instant; any other triple is interpreted directly as
Gregorian.  `none` models `pd.NaT`. -/
def resolveTriple (y mo d h mi s : Nat) : Option DateTime :=
  if is_jalali_date y mo d = true then
    (jalali_to_gregorian y mo d).bind fun g => mkDatetime g.1 g.2.1 g.2.2 h mi s
  else mkDatetime y mo d h mi s

/-- `parse_visit_date` (source lines 242-320) on a text or missing
cell.  Native timestamp and spreadsheet-numeric cells are outside this
embedding (the model's dataframes carry text cells).  The pattern list
is tried in source order: `H:MM` first, then `H:MM:SS`, then the
date-only pattern. -/
def parse_visit_date (value : Option String) : Option DateTime :=
  match value with
  | none => none
  | some v =>
    if preprocessDateText v = [] then none
    else
      match searchAt tryP1At (preprocessDateText v) with
      | some g => resolveTriple g.1 g.2.1 g.2.2.1 g.2.2.2.1 g.2.2.2.2 0
      | none =>
        match searchAt tryP2At (preprocessDateText v) with
        | some g => resolveTriple g.1 g.2.1 g.2.2.1 g.2.2.2.1 g.2.2.2.2.1 g.2.2.2.2.2
        | none =>
          match searchAt tryP3At (preprocessDateText v) with
          | some g => resolveTriple g.1 g.2.1 g.2.2 0 0 0
          | none => none


-- ===== tag derivation =====

/-- `STATUS_TAG_SOURCE` (source lines 112-116). -/
def STATUS_TAG_SOURCE : List (String × String) :=
  [("ثبت نوبت", "not_showed_patient"),
   ("چاپ نوبت", "showup_patient"),
   ("کنسل شده", "canceling_patient")]

/-- `APPOINTMENT_TYPE_TAG_SOURCE` (source lines 118-123). -/
def APPOINTMENT_TYPE_TAG_SOURCE : List (String × String) :=
  [("اينترنتي", "internet_user"),
   ("اینترنتی", "internet_user"),
   ("فالوآپ", "phone_user"),
   ("فالو آپ", "phone_user")]

/-- `CLINIC_TAG_SOURCE` (source lines 125-168). -/
def CLINIC_TAG_SOURCE : List (String × String) :=
  [("کلینیک  ویژه فوق تخصصی جراحی چاقی", "bariatric_surgery_clinic"),
   ("کلینیک  ویژه فوق تخصصی چکاپ", "checkup_specialty_clinic"),
   ("کلینیک  ویژه فوق تخصصی گوارش و کبد", "gastro_hepatology_specialty_clinic"),
   ("کلینیک بینایی سنجی", "optometry_clinic"),
   ("کلینیک تخصصی ارتوپدی", "orthopedics_clinic"),
   ("کلینیک تخصصی اورولوژی(جراحی کلیه و پروستات)", "urology_clinic"),
   ("کلینیک تخصصی بیماری های داخلی", "internal_medicine_clinic"),
   ("کلینیک تخصصی جراحی اطفال", "pediatric_surgery_clinic"),
   ("کلینیک تخصصی جراحی جنرال", "general_surgery_clinic"),
   ("کلینیک تخصصی جراحی زنان و زایمان", "obgyn_surgery_clinic"),
   ("کلینیک تخصصی جراحی عروق و واریس", "vascular_varicose_surgery_clinic"),
   ("کلینیک تخصصی جراحی فک و صورت", "oral_maxillofacial_surgery_clinic"),
   ("کلینیک تخصصی جراحی قلب", "cardiac_surgery_clinic"),
   ("کلینیک تخصصی جراحی مغز و اعصاب", "neurosurgery_clinic"),
   ("کلینیک تخصصی خون و سرطان", "hematology_oncology_clinic"),
   ("کلینیک تخصصی داخلی", "internal_specialty_clinic"),
   ("کلینیک تخصصی داخلی اطفال و نوزادان", "pediatric_neonatal_internal_clinic"),
   ("کلینیک تخصصی داخلی ریه", "pulmonology_clinic"),
   ("کلینیک تخصصی داخلی قلب و عروق", "cardiology_clinic"),
   ("کلینیک تخصصی داخلی مغز و اعصاب اطفال", "pediatric_neurology_clinic"),
   ("کلینیک تخصصی روانپزشکی", "psychiatry_clinic"),
   ("کلینیک تخصصی زیبایی و بیوتی", "aesthetics_beauty_clinic"),
   ("کلینیک تخصصی عفونی", "infectious_diseases_clinic"),
   ("کلینیک تخصصی پوست، مو و زیبایی", "dermatology_hair_aesthetics_clinic"),
   ("کلینیک تخصصی چشم", "ophthalmology_clinic"),
   ("کلینیک تخصصی گوش و حلق و بینی", "ent_clinic"),
   ("کلینیک تغذیه و رژیم درمانی", "nutrition_diet_therapy_clinic"),
   ("کلینیک جراحی پلاستیک", "plastic_surgery_clinic"),
   ("کلینیک داخلی مغز و اعصاب", "neurology_clinic"),
   ("کلینیک زخم", "wound_care_clinic"),
   ("کلینیک شنوایی سنجی", "audiology_clinic"),
   ("کلینیک فوق تخصصی اختلالات جنسی و زناشویی", "sexual_marital_disorders_clinic"),
   ("کلینیک فوق تخصصی بیماری های قلب", "cardiac_super_specialty_clinic"),
   ("کلینیک فوق تخصصی نفرولوژی، غدد، دیابت و تیروئید", "nephrology_endocrine_diabetes_thyroid_clinic"),
   ("کلینیک فوق تخصصی پستان", "breast_super_specialty_clinic"),
   ("کلینیک فوق تخصصی گوارش اطفال", "pediatric_gastroenterology_clinic"),
   ("کلینیک مشاوره و روانشناسی", "counseling_psychology_clinic"),
   ("کلینیک ویژه  فوق تخصصی درد", "pain_super_specialty_clinic"),
   ("کلینیک ویژه  فوق تخصصی زانو و تعویض مفصل", "knee_joint_replacement_clinic"),
   ("کلینیک ویژه  فوق تخصصی قلب اطفال تا 15 سال", "pediatric_cardiology_clinic"),
   ("کلینیک ویژه فوق تخصصی روماتولوژی", "rheumatology_super_specialty_clinic"),
   ("کلینیک ویژه فوق تخصصی قلب", "heart_super_specialty_clinic")]

/-- `_prepare_normalized_mapping` (source lines 221-222): keys are
Farsi-normalized and casefolded (modelled by ASCII lowercasing, which
agrees with `str.casefold` on these keys). -/
def prepareNormalizedMapping (m : List (String × String)) : List (String × String) :=
  m.map fun kv => (String.mk (lowerL (normFarsiL (some kv.1))), kv.2)

/-- Lookup in a prepared mapping.  A Python dict keeps the last binding
when two source keys normalize to the same key, hence the reversed
search. -/
def lookupTag (m : List (String × String)) (k : String) : Option String :=
  (m.reverse.find? fun kv => kv.1 == k).map (fun kv => kv.2)

/-- `STATUS_TAG_MAP` (source line 225). -/
def STATUS_TAG_MAP : List (String × String) := prepareNormalizedMapping STATUS_TAG_SOURCE

/-- `APPOINTMENT_TYPE_TAG_MAP` (source line 226). -/
def APPOINTMENT_TYPE_TAG_MAP : List (String × String) :=
  prepareNormalizedMapping APPOINTMENT_TYPE_TAG_SOURCE

/-- `CLINIC_TAG_MAP` (source line 227). -/
def CLINIC_TAG_MAP : List (String × String) := prepareNormalizedMapping CLINIC_TAG_SOURCE

/-- The local `add` closure of `build_tags` (source lines 442-444): a
tag is appended when it is present, non-empty and not already in the
list. -/
def addTag (tags : List String) (t : Option String) : List String :=
  match t with
  | some tag => if tag ≠ "" ∧ tag ∉ tags then tags ++ [tag] else tags
  | none => tags

/-- One field block of `build_tags` (source lines 449-459): normalize
the field, and when it is non-empty look its casefolded form up and
add the result. -/
def addLookup (tags : List String) (m : List (String × String)) (v : Option String) :
    List String :=
  if normalize_farsi_text v ≠ "" then
    addTag tags (lookupTag m (String.mk (lowerL (normFarsiL v))))
  else tags

/-- The two fixed baseline tags (source lines 446-447). -/
def baselineTags : List String :=
  addTag (addTag [] (some "noor_hospital_queue")) (some "patient")

/-- `build_tags` (source lines 439-463). -/
def build_tags (status appt clinic : Option String) : String :=
  if addLookup (addLookup (addLookup baselineTags STATUS_TAG_MAP status)
      APPOINTMENT_TYPE_TAG_MAP appt) CLINIC_TAG_MAP clinic = [] then ""
  else
    String.intercalate ","
      (addLookup (addLookup (addLookup baselineTags STATUS_TAG_MAP status)
        APPOINTMENT_TYPE_TAG_MAP appt) CLINIC_TAG_MAP clinic) ++ ","


-- ===== deduplication and classification engine =====

/-- One normalized record: the columns of the working dataframe that
`clean_dataframe` and `_enhanced_deduplication` read or write.  The
raw-source columns kept by the code but never read after validation
(`national_id_raw`, `mobile_raw`, `visit_date_raw`) are represented by
their surviving cleaned counterparts. -/
structure Rec where
  national_id : Option String
  full_name : Option String
  first_name : Option String
  last_name : Option String
  mobile : Option String
  gender : Option String
  visit_date_parsed : Option DateTime
  status_raw : Option String
  appointment_type_raw : Option String
  clinic_raw : Option String
deriving Repr, DecidableEq

/-- One input row after column resolution and renaming
(source lines 641-674): the seven logical fields the pipeline reads. -/
structure RawRow where
  national_id_raw : Option String
  full_name : Option String
  mobile_raw : Option String
  visit_date_raw : Option String
  status_raw : Option String
  appointment_type_raw : Option String
  clinic_raw : Option String
deriving Repr, DecidableEq

/-- Split a character list at whitespace runs, dropping empty pieces:
`[p for p in re.split(r"\s+", text) if p]` (source line 517). -/
def splitWSAux : List Char → List Char → List (List Char)
  | [], acc => if acc = [] then [] else [acc.reverse]
  | c :: rest, acc =>
    if c.isWhitespace then
      if acc = [] then splitWSAux rest [] else acc.reverse :: splitWSAux rest []
    else splitWSAux rest (c :: acc)

/-- `split_full_name` (source lines 511-524): all-but-last tokens join
into the first name, the last token is the last name; single-token
names yield an absent last name. -/
def split_full_name (value : Option String) : Option String × Option String :=
  match value with
  | none => (none, none)
  | some v =>
    let t := trimL v.toList
    if t = [] ∨ lowerL t = ['n', 'a', 'n'] ∨ lowerL t = ['n', 'o', 'n', 'e'] then (none, none)
    else
      match (splitWSAux t []).reverse with
      | [] => (none, none)
      | [p] => (some (String.mk p), none)
      | lastP :: restRev =>
        (some (String.intercalate " " (restRev.reverse.map String.mk)),
         some (String.mk lastP))

/-- The honorific alternatives of `detect_gender`'s prefix regex
(source line 553), in alternation order (the regex engine takes the
first alternative that matches). -/
def honorifics : List String :=
  ["آقای", "خانم", "دکتر", "مهندس", "استاد", "جناب", "سرکار", "سرکار خانم", "آقا", "خانم"]

/-- `re.sub(r"^(...)\s*", "", name)` of `detect_gender`
(source line 553). -/
def stripHonorific (name : String) : String :=
  match honorifics.find? (fun p => p.toList.isPrefixOf name.toList) with
  | some p => String.mk ((name.toList.drop p.toList.length).dropWhile Char.isWhitespace)
  | none => name

/-- `detect_gender` (source lines 527-559), parameterized by the
external gender lookup table `PERSIAN_GENDER_LOOKUP` (loaded from data
files outside the repository). -/
def detect_gender (glk : String → Option String) (first_name : Option String) : Option String :=
  match first_name with
  | none => none
  | some fn =>
    let name := String.mk (trimL (normFarsiL (some fn)))
    if name = "" then none
    else
      match glk name with
      | some g => some g
      | none =>
        match glk (match splitWSAux name.toList [] with
                   | [] => name
                   | w :: _ => String.mk w) with
        | some g => some g
        | none =>
          if stripHonorific name ≠ name then glk (stripHonorific name) else none

/-- `_is_name_complete` (source lines 562-568): both parts present and
at least 3 characters after stripping. -/
def is_name_complete (f l : Option String) : Bool :=
  match f, l with
  | some fs, some ls =>
    decide (3 ≤ (trimL fs.toList).length) && decide (3 ≤ (trimL ls.toList).length)
  | _, _ => false

/-- One input row normalized (source lines 676-688): cleaned id and
mobile, split name, gender, parsed visit date. -/
def recOf (glk : String → Option String) (row : RawRow) : Rec :=
  { national_id := clean_national_id row.national_id_raw
    full_name := row.full_name
    first_name := (split_full_name row.full_name).1
    last_name := (split_full_name row.full_name).2
    mobile := clean_mobile row.mobile_raw
    gender := detect_gender glk (split_full_name row.full_name).1
    visit_date_parsed := parse_visit_date row.visit_date_raw
    status_raw := row.status_raw
    appointment_type_raw := row.appointment_type_raw
    clinic_raw := row.clinic_raw }

def recsOf (glk : String → Option String) (rows : List RawRow) : List Rec :=
  rows.map (recOf glk)

/-- Chronological key of a record's parsed visit instant. -/
def dtKeyOf (dt : DateTime) : Nat :=
  dtKey dt.year dt.month dt.day dt.hour dt.minute dt.second

/-- The descending-by-visit-date, absent-last order used by
`sort_values(..., ascending=False, na_position="last")`
(source line 587): `a` may be placed before `b`. -/
def moreRecentB (a b : Rec) : Bool :=
  match a.visit_date_parsed, b.visit_date_parsed with
  | some x, some y => decide (dtKeyOf y ≤ dtKeyOf x)
  | some _, none => true
  | none, some _ => false
  | none, none => true

/-- Stable insertion sort by `moreRecentB`.  Ties keep input order; the
only inputs whose dedup outcome could differ under pandas' unstable
quicksort are groups with tied timestamps, which no claim involves. -/
def orderedInsertB (a : Rec) : List Rec → List Rec
  | [] => [a]
  | b :: l => if moreRecentB a b then a :: b :: l else b :: orderedInsertB a l

def sortByDateDesc : List Rec → List Rec
  | [] => []
  | a :: l => orderedInsertB a (sortByDateDesc l)

/-- The synthesized record of `_enhanced_deduplication`
(source lines 602-605): the most recent record with first/last/full
name replaced from the complete-name record. -/
def completeFrom (mr r : Rec) : Rec :=
  { mr with
    first_name := r.first_name
    last_name := r.last_name
    full_name := some ((r.first_name.getD "") ++ " " ++ (r.last_name.getD "")) }

/-- Resolution of one (sorted, most recent first) identity group
(source lines 589-612): `Sum.inl` is an accepted survivor,
`Sum.inr` a survivor whose name could not be completed. -/
def resolveSorted : List Rec → Option (Rec ⊕ Rec)
  | [] => none
  | mostRecent :: rest =>
    if is_name_complete mostRecent.first_name mostRecent.last_name = true then
      some (Sum.inl mostRecent)
    else
      match (mostRecent :: rest).find?
          (fun r => is_name_complete r.first_name r.last_name) with
      | some r => some (Sum.inl (completeFrom mostRecent r))
      | none => some (Sum.inr mostRecent)

/-- The rows of one identity group, in input order (the `groupby`
group for key `k`). -/
def groupOf (df : List Rec) (k : String) : List Rec :=
  df.filter fun r => decide (r.national_id = some k)

def resolveGroup (df : List Rec) (k : String) : Option (Rec ⊕ Rec) :=
  resolveSorted (sortByDateDesc (groupOf df k))

/-- The distinct present identity numbers: `groupby("national_id")`
drops rows whose key is `NA` (and line 584 skips them again).  pandas
iterates groups in sorted key order; the model keeps them in `dedup`
order, which affects no bucket's membership. -/
def groupKeys (df : List Rec) : List String :=
  (df.filterMap Rec.national_id).dedup

/-- `_enhanced_deduplication` (source lines 571-630): one record per
present identity number, appended in group order to the accepted list
(`result_records`) or the incomplete list (`incomplete_records`). -/
def enhanced_deduplication (df : List Rec) : List Rec × List Rec :=
  ((groupKeys df).filterMap fun k =>
      match resolveGroup df k with
      | some (Sum.inl r) => some r
      | _ => none,
   (groupKeys df).filterMap fun k =>
      match resolveGroup df k with
      | some (Sum.inr r) => some r
      | _ => none)

/-- Substring test, as pandas `str.contains(..., regex=False)`. -/
def containsSub (pat s : List Char) : Bool :=
  s.tails.any fun t => pat.isPrefixOf t

/-- `^\d+$`: nonempty and all digits. -/
def isAllDigits (s : String) : Bool :=
  decide (s.toList ≠ []) && s.toList.all isUnicodeDigit

/-- The invalid-name mask of `clean_dataframe` (source lines 699-716):
the anonymous-caller marker (case-insensitively), `.`/`-` punctuation,
Latin letters, a name part shorter than 3 characters, or a purely
numeric name part. -/
def invalidNameMask (r : Rec) : Bool :=
  containsSub "کاربر تلفنی".toList (lowerL (r.full_name.getD "").toList)
  || (r.full_name.getD "").toList.any (fun c => c == '.' || c == '-')
  || (r.full_name.getD "").toList.any (fun c => ('A' ≤ c && c ≤ 'Z') || ('a' ≤ c && c ≤ 'z'))
  || decide ((r.first_name.getD "").length < 3)
  || decide ((r.last_name.getD "").length < 3)
  || isAllDigits (r.first_name.getD "")
  || isAllDigits (r.last_name.getD "")

/-- The required-field mask (source line 724). -/
def requiredOkB (r : Rec) : Bool :=
  r.national_id.isSome && r.first_name.isSome && r.last_name.isSome

/-- `duplicated(subset=["mobile"], keep=False)` restricted to present
mobiles (source line 731): the row's mobile value occurs in at least
two rows. -/
def phoneDupB (l : List Rec) (r : Rec) : Bool :=
  r.mobile.isSome && decide (2 ≤ l.countP fun x => decide (x.mobile = r.mobile))

def survivorsOf (glk : String → Option String) (rows : List RawRow) : List Rec :=
  (enhanced_deduplication (recsOf glk rows)).1

def incompleteOf (glk : String → Option String) (rows : List RawRow) : List Rec :=
  (enhanced_deduplication (recsOf glk rows)).2

def excludedBucket (glk : String → Option String) (rows : List RawRow) : List Rec :=
  (survivorsOf glk rows).filter invalidNameMask

def nameValidRows (glk : String → Option String) (rows : List RawRow) : List Rec :=
  (survivorsOf glk rows).filter fun r => !invalidNameMask r

def acceptedRows (glk : String → Option String) (rows : List RawRow) : List Rec :=
  (nameValidRows glk rows).filter requiredOkB

def duplicatePhoneBucket (glk : String → Option String) (rows : List RawRow) : List Rec :=
  (acceptedRows glk rows).filter (phoneDupB (acceptedRows glk rows))

def cleanedBucket (glk : String → Option String) (rows : List RawRow) : List Rec :=
  (acceptedRows glk rows).filter fun r => !phoneDupB (acceptedRows glk rows) r

/-- The four output tables of `clean_dataframe`. -/
structure Buckets where
  cleaned : List Rec
  excluded : List Rec
  duplicate_phone : List Rec
  incomplete_name : List Rec
deriving Repr, DecidableEq

/-- `clean_dataframe` (source lines 633-794) on column-resolved rows.
The final per-row enrichment (formatted date columns and tags, lines
737-793) adds derived display columns row-wise and neither adds,
removes nor reorders rows, so the model returns the classified records
themselves.  The pre-deduplication sort (lines 690-693) only reorders
rows inside each identity group, which the group-level sort repeats,
so it is not modelled separately. -/
def clean_dataframe (glk : String → Option String) (rows : List RawRow) : Buckets :=
  { cleaned := cleanedBucket glk rows
    excluded := excludedBucket glk rows
    duplicate_phone := duplicatePhoneBucket glk rows
    incomplete_name := incompleteOf glk rows }

/-- The empty external gender lookup: the documented behavior when the
gender data files are missing. -/
def glkNone : String → Option String := fun _ => none

/-- Concrete rows for the engine theorems' witnesses and
counterexamples. -/
def wRow1 : RawRow :=
  { national_id_raw := some "12345678", full_name := some "علی رضایی"
    mobile_raw := some "09123456789", visit_date_raw := none
    status_raw := none, appointment_type_raw := none, clinic_raw := none }

def wRow2 : RawRow :=
  { national_id_raw := some "87654321", full_name := some "حسین محمدی"
    mobile_raw := some "09123456789", visit_date_raw := none
    status_raw := none, appointment_type_raw := none, clinic_raw := none }

/-- A row whose identity number fails validation (too short). -/
def cRow1 : RawRow :=
  { national_id_raw := some "123", full_name := some "علی رضایی"
    mobile_raw := some "09123456789", visit_date_raw := none
    status_raw := none, appointment_type_raw := none, clinic_raw := none }

/-- A row whose identity number fails validation (single repeated
digit). -/
def cRow2 : RawRow :=
  { national_id_raw := some "0000000000", full_name := some "حسین محمدی"
    mobile_raw := some "09123456789", visit_date_raw := none
    status_raw := none, appointment_type_raw := none, clinic_raw := none }

/-- Two records with one identity: the more recent `c5a` has a
too-short name, the older `c5b` a complete one. -/
def c5a : Rec :=
  { national_id := some "11112222", full_name := some "ع ر"
    first_name := some "ع", last_name := some "ر", mobile := none, gender := none
    visit_date_parsed := some (DateTime.mk 2024 5 6 10 0 0), status_raw := none
    appointment_type_raw := none, clinic_raw := none }

def c5b : Rec :=
  { national_id := some "11112222", full_name := some "علی رضایی"
    first_name := some "علی", last_name := some "رضایی", mobile := none, gender := none
    visit_date_parsed := some (DateTime.mk 2024 5 1 10 0 0), status_raw := none
    appointment_type_raw := none, clinic_raw := none }

-- ===== theorems =====

/-- Auxiliary: a nonempty list has a nonempty `dedup`. -/
theorem dedup_length_pos_of_ne_nil {l : List Char} (h : l ≠ []) : 0 < l.dedup.length := by
  cases l with
  | nil => exact absurd rfl h
  | cons a t =>
    have ha : a ∈ (a :: t).dedup := List.mem_dedup.mpr (List.mem_cons_self a t)
    exact List.length_pos.mpr (List.ne_nil_of_mem ha)

theorem mobileStep1_skip {ds : List Char} (h : ds.length ≠ 12) : mobileStep1 ds = ds := by
  unfold mobileStep1
  rw [if_neg]
  rintro ⟨-, h12⟩
  exact h h12

theorem mobileStep2_apply {ds : List Char} (h4 : ds.take 4 = ['0', '0', '9', '8'])
    (h14 : ds.length = 14) : mobileStep2 ds = '0' :: ds.drop 4 := by
  unfold mobileStep2
  rw [if_pos ⟨h4, h14⟩]

theorem mobileStep2_skip {ds : List Char} (h : ds.length ≠ 14) : mobileStep2 ds = ds := by
  unfold mobileStep2
  rw [if_neg]
  rintro ⟨-, h14⟩
  exact h h14

theorem mobileStep3_skip {ds : List Char} (h : ds.length ≠ 10) : mobileStep3 ds = ds := by
  unfold mobileStep3
  rw [if_neg]
  rintro ⟨h10, -⟩
  exact h h10

theorem mobileStep3_apply {ds : List Char} (h : ds.length = 10) (h0 : ds.take 1 ≠ ['0']) :
    mobileStep3 ds = '0' :: ds := by
  unfold mobileStep3
  rw [if_pos ⟨h, h0⟩]

theorem mobileAccept_eleven_09 {ds : List Char} (h : ds.length = 11)
    (h2 : ds.take 2 = ['0', '9']) : mobileAccept ds = some (String.mk ds) := by
  unfold mobileAccept
  rw [if_pos ⟨h, h2⟩]

theorem mobileAccept_eleven_other {ds : List Char} (h : ds.length = 11)
    (h2 : ds.take 2 ≠ ['0', '9']) : mobileAccept ds = some (String.mk ds) := by
  unfold mobileAccept
  rw [if_neg (by rintro ⟨-, hx⟩; exact h2 hx),
    if_neg (by rintro ⟨hx, -⟩; omega),
    if_neg (by intro hx; omega),
    if_pos h]

theorem mobileAccept_none {ds : List Char} (h10 : ds.length ≠ 10) (h11 : ds.length ≠ 11) :
    mobileAccept ds = none := by
  unfold mobileAccept
  rw [if_neg (by rintro ⟨hx, -⟩; exact h11 hx),
    if_neg (by rintro ⟨hx, -⟩; exact h10 hx),
    if_neg h10, if_neg h11]

/-- C3: `clean_national_id` strips all non-digit characters from the
normalized input and returns the digit string exactly when it is 8 to
11 digits long with at least two distinct digit values; otherwise
(including the all-identical case such as "0000000000") it returns the
absent marker. -/
theorem clean_national_id_rule (value : Option String) :
    clean_national_id value =
      (if 8 ≤ (digitsOf value).length ∧ (digitsOf value).length ≤ 11 ∧
          2 ≤ (digitsOf value).dedup.length
       then some (String.mk (digitsOf value)) else none) ∧
    clean_national_id (some "0000000000") = none := by
  constructor
  · unfold clean_national_id
    by_cases h1 : (digitsOf value).length < 8 ∨ (digitsOf value).length > 11
    · rw [if_pos h1, if_neg]
      intro h2
      omega
    · rw [if_neg h1]
      push_neg at h1
      have hne : digitsOf value ≠ [] := by
        intro h
        rw [h] at h1
        simp at h1
      have hpos : 0 < (digitsOf value).dedup.length := dedup_length_pos_of_ne_nil hne
      by_cases h2 : (digitsOf value).dedup.length = 1
      · rw [if_pos h2, if_neg]
        intro h3
        omega
      · rw [if_neg h2, if_pos, if_pos]
        · exact ⟨h1.1, h1.2, by omega⟩
        · exact ⟨h1.1, h1.2, by omega⟩
  · decide

/-- C4: `clean_mobile` normalizes a 12-digit "98"-prefixed number to the
domestic 11-digit form, maps a "0098"-prefixed 14-digit number to the
0-prefixed 11-digit form, left-pads a bare 10-digit number starting
with '9', and rejects any 9-digit input. -/
theorem clean_mobile_rule :
    clean_mobile (some "989123456789") = some "09123456789" ∧
    (∀ rest : List Char, rest.length = 10 → (∀ c ∈ rest, c.isDigit = true) →
      cleanMobileDigits ('0' :: '0' :: '9' :: '8' :: rest) = some (String.mk ('0' :: rest))) ∧
    (∀ ds : List Char, ds.length = 10 → (∀ c ∈ ds, c.isDigit = true) → ds.take 1 = ['9'] →
      cleanMobileDigits ds = some (String.mk ('0' :: ds))) ∧
    (∀ ds : List Char, ds.length = 9 → (∀ c ∈ ds, c.isDigit = true) →
      cleanMobileDigits ds = none) := by
  refine ⟨by decide, ?_, ?_, ?_⟩
  · intro rest hlen _
    unfold cleanMobileDigits
    rw [if_neg (by simp)]
    rw [mobileStep1_skip (by simp [hlen])]
    rw [mobileStep2_apply (by rfl) (by simp [hlen])]
    rw [mobileStep3_skip (by simp [hlen])]
    cases rest with
    | nil => simp at hlen
    | cons c rest' =>
      simp only [List.length_cons] at hlen
      simp only [List.drop_succ_cons, List.drop_zero]
      by_cases hc : c = '9'
      · subst hc
        exact mobileAccept_eleven_09 (by simp; omega) rfl
      · refine mobileAccept_eleven_other (by simp; omega) ?_
        intro hx
        have : c = '9' := by
          have := List.cons.inj hx
          have := List.cons.inj this.2
          exact this.1
        exact hc this
  · intro ds hlen _ htake
    unfold cleanMobileDigits
    rw [if_neg (by intro h; rw [h] at hlen; simp at hlen)]
    rw [mobileStep1_skip (by omega)]
    rw [mobileStep2_skip (by omega)]
    rw [mobileStep3_apply hlen (by rw [htake]; decide)]
    refine mobileAccept_eleven_09 (by simp [hlen]) ?_
    cases ds with
    | nil => simp at hlen
    | cons c ds' =>
      simp only [List.take, List.take_nil, List.cons.injEq, and_true] at htake
      rw [htake]
      rfl
  · intro ds hlen _
    unfold cleanMobileDigits
    rw [if_neg (by intro h; rw [h] at hlen; simp at hlen)]
    rw [mobileStep1_skip (by omega)]
    rw [mobileStep2_skip (by omega)]
    rw [mobileStep3_skip (by omega)]
    exact mobileAccept_none (by omega) (by omega)

/-- Witness for C4 at concrete inputs, discharging each hypothesis. -/
theorem clean_mobile_rule_witness :
    cleanMobileDigits ['0', '0', '9', '8', '9', '1', '2', '3', '4', '5', '6', '7', '8', '9'] =
      some (String.mk ['0', '9', '1', '2', '3', '4', '5', '6', '7', '8', '9']) ∧
    cleanMobileDigits ['9', '1', '2', '3', '4', '5', '6', '7', '8', '9'] =
      some (String.mk ['0', '9', '1', '2', '3', '4', '5', '6', '7', '8', '9']) ∧
    cleanMobileDigits ['1', '2', '3', '4', '5', '6', '7', '8', '9'] = none := by
  refine ⟨?_, ?_, ?_⟩
  · exact clean_mobile_rule.2.1 ['9', '1', '2', '3', '4', '5', '6', '7', '8', '9']
      (by decide) (by decide)
  · exact clean_mobile_rule.2.2.1 ['9', '1', '2', '3', '4', '5', '6', '7', '8', '9']
      (by decide) (by decide) (by decide)
  · exact clean_mobile_rule.2.2.2 ['1', '2', '3', '4', '5', '6', '7', '8', '9']
      (by decide) (by decide)

theorem jalaliLeap_iff (y : Nat) : jalaliLeap y = true ↔
    (y % 33 = 1 ∨ y % 33 = 5 ∨ y % 33 = 9 ∨ y % 33 = 13 ∨
     y % 33 = 17 ∨ y % 33 = 22 ∨ y % 33 = 26 ∨ y % 33 = 30) := by
  simp [jalaliLeap]
  tauto

theorem gregLeap_iff (y : Nat) : gregLeap y = true ↔
    ((y % 4 = 0 ∧ y % 100 ≠ 0) ∨ y % 400 = 0) := by
  simp [gregLeap]

theorem extractMonth_nil (acc rem : Nat) : extractMonth [] acc rem = (acc, rem) := rfl

theorem extractMonth_lt {len rem : Nat} (rest : List Nat) (acc : Nat) (h : rem < len) :
    extractMonth (len :: rest) acc rem = (acc, rem) := by
  simp only [extractMonth]
  rw [if_pos h]

theorem extractMonth_ge {len rem : Nat} (rest : List Nat) (acc : Nat) (h : ¬ rem < len) :
    extractMonth (len :: rest) acc rem = extractMonth rest (acc + 1) (rem - len) := by
  simp only [extractMonth]
  rw [if_neg h]

/-- Forward specification of the month-extraction loop: started at the
cumulative length of the first `k` months plus an in-month offset that
fits the next month, it lands on that month and offset. -/
theorem extractMonth_sum (L : List Nat) (acc k d0 : Nat) (h2 : k ≤ L.length)
    (hd : k < L.length → d0 < L.getD k 0) :
    extractMonth L acc ((L.take k).sum + d0) = (acc + k, d0) := by
  induction L generalizing acc k with
  | nil =>
    have hk : k = 0 := by simpa using h2
    subst hk
    simpa using extractMonth_nil acc d0
  | cons len rest ih =>
    cases k with
    | zero =>
      have hlen : d0 < len := by simpa using hd (by simp)
      simpa using extractMonth_lt rest acc hlen
    | succ k =>
      simp only [List.take_succ_cons, List.sum_cons]
      rw [extractMonth_ge rest acc (by omega)]
      have hrec := ih (acc + 1) k (by simpa using h2)
        (by intro hk; simpa using hd (by simpa using hk))
      have harg : len + (List.take k rest).sum + d0 - len
          = (List.take k rest).sum + d0 := by omega
      rw [harg, hrec]
      congr 1
      omega

/-- Inverse characterization of the month-extraction loop. -/
theorem extractMonth_inv (L : List Nat) (acc rem : Nat) :
    ∃ k d0, extractMonth L acc rem = (acc + k, d0) ∧ k ≤ L.length ∧
      rem = (L.take k).sum + d0 ∧ (k < L.length → d0 < L.getD k 0) := by
  induction L generalizing acc rem with
  | nil =>
    exact ⟨0, rem, by simpa using extractMonth_nil acc rem, by simp, by simp, by simp⟩
  | cons len rest ih =>
    by_cases h : rem < len
    · refine ⟨0, rem, by simpa using extractMonth_lt rest acc h, by simp, by simp, ?_⟩
      intro _
      simpa using h
    · obtain ⟨k, d0, he, hk, hr, hb⟩ := ih (acc + 1) (rem - len)
      refine ⟨k + 1, d0, ?_, by simpa using hk, ?_, ?_⟩
      · rw [extractMonth_ge rest acc h, he]
        congr 1
        omega
      · simp only [List.take_succ_cons, List.sum_cons]
        omega
      · intro hlt
        have := hb (by simpa using hlt)
        simpa using this

/-- The packed month offsets agree with cumulative Jalali month lengths. -/
theorem jDaysBefore_eq_sum (m : Nat) (h1 : 1 ≤ m) (h2 : m ≤ 12) :
    jDaysBefore m = (jMonthsList.take (m - 1)).sum := by
  interval_cases m <;> decide

/-- Jalali month/day extraction applied at a packed month offset. -/
theorem jMD_spec (m d0 : Nat) (hm1 : 1 ≤ m) (hm2 : m ≤ 12)
    (hd : d0 < (if m ≤ 6 then 31 else 30)) :
    extractMonth jMonthsList 1 (jDaysBefore m + d0) = (m, d0) := by
  rw [jDaysBefore_eq_sum m hm1 hm2]
  have hres := extractMonth_sum jMonthsList 1 (m - 1) d0
    (by simp only [jMonthsList]; simp; omega)
    (by
      intro hk
      simp only [jMonthsList, List.length] at hk
      interval_cases m <;> norm_num at hd <;> simp [jMonthsList, List.getD] <;> omega)
  rw [hres]
  congr 1
  omega

/-- Year/remainder analysis of the jalali unpack on a packed value. -/
theorem jalali_year_rem (y off n : Nat) (hy1 : 1300 ≤ y) (hy2 : y ≤ 1500)
    (hn : n = 365 * (y - 979) + ((y - 979) / 33) * 8 + ((y - 979) % 33 + 3) / 4 + off)
    (hoff : off ≤ 364 ∨ (off = 365 ∧
      (y % 33 = 1 ∨ y % 33 = 5 ∨ y % 33 = 9 ∨ y % 33 = 13 ∨
       y % 33 = 17 ∨ y % 33 = 22 ∨ y % 33 = 26 ∨ y % 33 = 30))) :
    (979 + 33 * (n / 12053) + 4 * (n % 12053 / 1461)
       + (if 366 ≤ n % 12053 % 1461 then (n % 12053 % 1461 - 1) / 365 else 0) = y)
    ∧ (if 366 ≤ n % 12053 % 1461 then (n % 12053 % 1461 - 1) % 365
       else n % 12053 % 1461) = off := by
  have hgood : off ≤ 364 ∨ (off = 365 ∧ (y - 979) % 33 % 4 = 0 ∧ (y - 979) % 33 ≤ 28) := by
    rcases hoff with h | ⟨h1, h2⟩
    · left; exact h
    · right
      refine ⟨h1, ?_⟩
      rcases h2 with h | h | h | h | h | h | h | h <;> omega
  clear hoff
  have hoff365 : off ≤ 365 := by omega
  have hq : n / 12053 = (y - 979) / 33 ∧
      n % 12053 = 365 * ((y - 979) % 33) + ((y - 979) % 33 + 3) / 4 + off := by
    omega
  have h3 : ((y - 979) % 33 + 3) / 4 = (y - 979) % 33 / 4 + ((y - 979) % 33 % 4 + 3) / 4 := by
    omega
  have hR2 : n % 12053 = 1461 * ((y - 979) % 33 / 4)
      + (365 * ((y - 979) % 33 % 4) + ((y - 979) % 33 % 4 + 3) / 4 + off) := by
    omega
  have hR3lt : 365 * ((y - 979) % 33 % 4) + ((y - 979) % 33 % 4 + 3) / 4 + off < 1461 := by
    omega
  have hs1 : n % 12053 / 1461 = (y - 979) % 33 / 4 := by omega
  have hs2 : n % 12053 % 1461
      = 365 * ((y - 979) % 33 % 4) + ((y - 979) % 33 % 4 + 3) / 4 + off := by omega
  rcases Nat.lt_or_ge (n % 12053 % 1461) 366 with hB | hA
  · constructor
    · rw [if_neg (by omega)]
      omega
    · rw [if_neg (by omega)]
      omega
  · have ht : 1 ≤ (y - 979) % 33 % 4 := by omega
    have hoff364 : off ≤ 364 := by omega
    have he : n % 12053 % 1461 - 1 = 365 * ((y - 979) % 33 % 4) + off := by omega
    have hf : (n % 12053 % 1461 - 1) / 365 = (y - 979) % 33 % 4 := by omega
    have hr : (n % 12053 % 1461 - 1) % 365 = off := by omega
    constructor
    · rw [if_pos hA]
      omega
    · rw [if_pos hA]
      exact hr


/-- The Jalali unpack inverts the Jalali pack on the pipeline's year window. -/
theorem jalali_unpack_pack (y m d : Nat) (hy1 : 1300 ≤ y) (hy2 : y ≤ 1500)
    (hv : jalaliValidB y m d = true) :
    jalaliUnpack (jalaliPack y m d) = (y, m, d) := by
  simp only [jalaliValidB, Bool.and_eq_true, decide_eq_true_eq] at hv
  obtain ⟨⟨⟨hm1, hm2⟩, hd1⟩, hd2⟩ := hv
  have hoff : jDaysBefore m + (d - 1) ≤ 364 ∨ (jDaysBefore m + (d - 1) = 365 ∧
      (y % 33 = 1 ∨ y % 33 = 5 ∨ y % 33 = 9 ∨ y % 33 = 13 ∨
       y % 33 = 17 ∨ y % 33 = 22 ∨ y % 33 = 26 ∨ y % 33 = 30)) := by
    rcases le_or_lt m 11 with hm11 | hm12
    · left
      have hlen : jalaliMonthLen y m ≤ 31 := by
        unfold jalaliMonthLen
        split_ifs <;> omega
      unfold jDaysBefore
      split_ifs <;> omega
    · have hm12e : m = 12 := by omega
      subst hm12e
      unfold jalaliMonthLen at hd2
      norm_num at hd2
      rcases hb : jalaliLeap y with _ | _
      · rw [hb] at hd2
        simp at hd2
        left
        unfold jDaysBefore
        norm_num
        omega
      · rw [hb] at hd2
        simp at hd2
        rcases le_or_lt d 29 with hd29 | hd30
        · left
          unfold jDaysBefore
          norm_num
          omega
        · right
          constructor
          · unfold jDaysBefore
            norm_num
            omega
          · exact (jalaliLeap_iff y).mp hb
  have hyr := jalali_year_rem y (jDaysBefore m + (d - 1)) (jalaliPack y m d) hy1 hy2
    (by unfold jalaliPack; omega) hoff
  have hmd : d - 1 < (if m ≤ 6 then 31 else 30) := by
    unfold jalaliMonthLen at hd2
    split_ifs at hd2 <;> split_ifs <;> omega
  have hjmd := jMD_spec m (d - 1) hm1 hm2 hmd
  rcases Nat.lt_or_ge (jalaliPack y m d % 12053 % 1461) 366 with hB | hA
  · rw [jalaliUnpack, if_neg (by omega)]
    obtain ⟨hyear, hrem⟩ := hyr
    rw [if_neg (by omega)] at hyear hrem
    rw [hrem, hjmd]
    simp only [Prod.mk.injEq]
    refine ⟨by omega, trivial, by omega⟩
  · rw [jalaliUnpack, if_pos hA]
    obtain ⟨hyear, hrem⟩ := hyr
    rw [if_pos hA] at hyear hrem
    rw [hrem, hjmd]
    simp only [Prod.mk.injEq]
    refine ⟨by omega, trivial, by omega⟩


theorem gregYearDays_decomp (gy K C Q t : Nat) (hgy : gy = 1600 + 400 * K + 100 * C + 4 * Q + t)
    (hK : K ≤ 1) (hC : C ≤ 3) (hQ : Q ≤ 24) (ht : t ≤ 3) :
    gregYearDays gy + (4 * Q + t + 99) / 100
      = 146097 * K + 36524 * C + 1461 * Q + 365 * t + (t + 3) / 4
        + (100 * C + 4 * Q + t + 399) / 400 := by
  subst hgy
  unfold gregYearDays
  have e4 : (1600 + 400 * K + 100 * C + 4 * Q + t - 1600 + 3) / 4
      = 100 * K + 25 * C + Q + (t + 3) / 4 := by omega
  have e100 : (1600 + 400 * K + 100 * C + 4 * Q + t - 1600 + 99) / 100
      = 4 * K + C + (4 * Q + t + 99) / 100 := by omega
  have e400 : (1600 + 400 * K + 100 * C + 4 * Q + t - 1600 + 399) / 400
      = K + (100 * C + 4 * Q + t + 399) / 400 := by omega
  omega

theorem greg_year_rem (n : Nat) (hlo : 117322 ≤ n) (hhi : n ≤ 190740) :
    1600 ≤ (gYearRem n).1 ∧ (gYearRem n).1 ≤ 2500 ∧
    ((gYearRem n).2.2 = true →
       (((gYearRem n).1 % 4 = 0 ∧ (gYearRem n).1 % 100 ≠ 0) ∨ (gYearRem n).1 % 400 = 0)
         ∧ (gYearRem n).2.1 ≤ 365) ∧
    ((gYearRem n).2.2 = false →
       ¬(((gYearRem n).1 % 4 = 0 ∧ (gYearRem n).1 % 100 ≠ 0) ∨ (gYearRem n).1 % 400 = 0)
         ∧ (gYearRem n).2.1 ≤ 364) ∧
    gregYearDays (gYearRem n).1 + (gYearRem n).2.1 = n := by
  have hK1 : n / 146097 ≤ 1 := by omega
  unfold gYearRem
  rcases Nat.lt_or_ge (n % 146097) 36525 with hA | hA
  · rw [if_neg (by omega)]
    unfold g4Stage
    have hQ : n % 146097 / 1461 ≤ 24 := by omega
    rcases Nat.lt_or_ge (n % 146097 % 1461) 366 with hB | hB
    · rw [if_neg (by omega)]
      have hd := gregYearDays_decomp (1600 + 400 * (n / 146097) + 4 * (n % 146097 / 1461))
        (n / 146097) 0 (n % 146097 / 1461) 0 (by omega) hK1 (by omega) hQ (by omega)
      dsimp only
      refine ⟨by omega, by omega, fun _ => ⟨by omega, by omega⟩, fun h => by simp at h, by omega⟩
    · rw [if_pos hB]
      have ht3 : (n % 146097 % 1461 - 1) / 365 ≤ 3 := by omega
      have ht1 : 1 ≤ (n % 146097 % 1461 - 1) / 365 := by omega
      have hd := gregYearDays_decomp
        (1600 + 400 * (n / 146097) + 4 * (n % 146097 / 1461) + (n % 146097 % 1461 - 1) / 365)
        (n / 146097) 0 (n % 146097 / 1461) ((n % 146097 % 1461 - 1) / 365)
        (by omega) hK1 (by omega) hQ ht3
      have hE4 : ((n % 146097 % 1461 - 1) / 365 + 3) / 4 = 1 := by omega
      have hE100 : (4 * (n % 146097 / 1461) + (n % 146097 % 1461 - 1) / 365 + 99) / 100 = 1 := by
        omega
      have hE400 : (100 * 0 + 4 * (n % 146097 / 1461) + (n % 146097 % 1461 - 1) / 365 + 399) / 400
          = 1 := by omega
      dsimp only
      refine ⟨by omega, by omega, fun h => by simp at h, fun _ => ⟨by omega, by omega⟩, by omega⟩
  · rw [if_pos hA]
    have hC1 : 1 ≤ (n % 146097 - 1) / 36524 := by omega
    have hC3 : (n % 146097 - 1) / 36524 ≤ 3 := by omega
    rcases Nat.lt_or_ge ((n % 146097 - 1) % 36524) 365 with hD | hD
    · rw [if_neg (by omega)]
      unfold g4Stage
      rw [if_neg (by omega)]
      have hDq : (n % 146097 - 1) % 36524 / 1461 = 0 := by omega
      have hd := gregYearDays_decomp
        (1600 + 400 * (n / 146097) + 100 * ((n % 146097 - 1) / 36524)
          + 4 * ((n % 146097 - 1) % 36524 / 1461))
        (n / 146097) ((n % 146097 - 1) / 36524) 0 0 (by omega) hK1 hC3 (by omega) (by omega)
      have hE400 : (100 * ((n % 146097 - 1) / 36524) + 4 * 0 + 0 + 399) / 400 = 1 := by omega
      dsimp only
      refine ⟨by omega, by omega, fun h => by simp at h, fun _ => ⟨by omega, by omega⟩, by omega⟩
    · rw [if_pos hD]
      unfold g4Stage
      have hQ : ((n % 146097 - 1) % 36524 + 1) / 1461 ≤ 24 := by omega
      rcases Nat.lt_or_ge (((n % 146097 - 1) % 36524 + 1) % 1461) 366 with hB | hB
      · rw [if_neg (by omega)]
        have hQ1 : 1 ≤ ((n % 146097 - 1) % 36524 + 1) / 1461 := by omega
        have hd := gregYearDays_decomp
          (1600 + 400 * (n / 146097) + 100 * ((n % 146097 - 1) / 36524)
            + 4 * (((n % 146097 - 1) % 36524 + 1) / 1461))
          (n / 146097) ((n % 146097 - 1) / 36524) (((n % 146097 - 1) % 36524 + 1) / 1461) 0
          (by omega) hK1 hC3 hQ (by omega)
        have hE100 : (4 * (((n % 146097 - 1) % 36524 + 1) / 1461) + 0 + 99) / 100 = 1 := by omega
        have hE400 : (100 * ((n % 146097 - 1) / 36524)
            + 4 * (((n % 146097 - 1) % 36524 + 1) / 1461) + 0 + 399) / 400 = 1 := by omega
        dsimp only
        refine ⟨by omega, by omega, fun _ => ⟨by omega, by omega⟩, fun h => by simp at h, by omega⟩
      · rw [if_pos hB]
        have ht3 : ((((n % 146097 - 1) % 36524 + 1) % 1461) - 1) / 365 ≤ 3 := by omega
        have ht1 : 1 ≤ ((((n % 146097 - 1) % 36524 + 1) % 1461) - 1) / 365 := by omega
        have hd := gregYearDays_decomp
          (1600 + 400 * (n / 146097) + 100 * ((n % 146097 - 1) / 36524)
            + 4 * (((n % 146097 - 1) % 36524 + 1) / 1461)
            + ((((n % 146097 - 1) % 36524 + 1) % 1461) - 1) / 365)
          (n / 146097) ((n % 146097 - 1) / 36524) (((n % 146097 - 1) % 36524 + 1) / 1461)
          (((((n % 146097 - 1) % 36524 + 1) % 1461) - 1) / 365)
          (by omega) hK1 hC3 hQ ht3
        have hE4 : (((((n % 146097 - 1) % 36524 + 1) % 1461) - 1) / 365 + 3) / 4 = 1 := by omega
        have hE100 : (4 * (((n % 146097 - 1) % 36524 + 1) / 1461)
            + ((((n % 146097 - 1) % 36524 + 1) % 1461) - 1) / 365 + 99) / 100 = 1 := by omega
        have hE400 : (100 * ((n % 146097 - 1) / 36524)
            + 4 * (((n % 146097 - 1) % 36524 + 1) / 1461)
            + ((((n % 146097 - 1) % 36524 + 1) % 1461) - 1) / 365 + 399) / 400 = 1 := by omega
        dsimp only
        refine ⟨by omega, by omega, fun h => by simp at h, fun _ => ⟨by omega, by omega⟩, by omega⟩


theorem gDaysBefore_eq_sum (leap : Bool) (m : Nat) (h1 : 1 ≤ m) (h2 : m ≤ 12) :
    gDaysBefore m + (if 2 < m ∧ leap = true then 1 else 0)
      = ((gregMonthsList leap).take (m - 1)).sum := by
  cases leap <;> interval_cases m <;> decide

theorem gregMonthsList_getD (leap : Bool) (k : Nat) (hk : k < 11) :
    (gregMonthsList leap).getD k 0 = gregMonthLenB leap (k + 1) := by
  cases leap <;> interval_cases k <;> decide

theorem gregMonthsList_sum (leap : Bool) :
    ((gregMonthsList leap).take 11).sum = if leap = true then 335 else 334 := by
  cases leap <;> decide

theorem gregMonthsList_length (leap : Bool) : (gregMonthsList leap).length = 11 := by
  cases leap <;> decide

/-- Unpacking a day number in the pipeline's window yields a valid
Gregorian date from 1600 on that packs back to the same day number. -/
theorem greg_from_to (n : Nat) (hlo : 117322 ≤ n) (hhi : n ≤ 190740) :
    gregValidB (gregFromDayNo n).1 (gregFromDayNo n).2.1 (gregFromDayNo n).2.2 = true ∧
    1600 ≤ (gregFromDayNo n).1 ∧
    gregPack (gregFromDayNo n).1 (gregFromDayNo n).2.1 (gregFromDayNo n).2.2 = n := by
  obtain ⟨hy1600, hy2500, hlt, hlf, hpack⟩ := greg_year_rem n hlo hhi
  obtain ⟨k, d0, he, hk, hr, hb⟩ :=
    extractMonth_inv (gregMonthsList ((gYearRem n).2.2)) 1 ((gYearRem n).2.1)
  rw [gregMonthsList_length] at hk
  have hleap : gregLeap (gYearRem n).1 = (gYearRem n).2.2 := by
    rcases hfl : (gYearRem n).2.2 with _ | _
    · obtain ⟨hnl, _⟩ := hlf hfl
      rcases hgl : gregLeap (gYearRem n).1 with _ | _
      · rfl
      · exact absurd ((gregLeap_iff _).mp hgl) hnl
    · exact (gregLeap_iff _).mpr (hlt hfl).1
  have hrembound : (gYearRem n).2.1 ≤ 365 := by
    rcases hfl : (gYearRem n).2.2 with _ | _
    · have := (hlf hfl).2
      omega
    · exact (hlt hfl).2
  have hd0 : k = 11 → d0 ≤ 30 := by
    intro hk11
    subst hk11
    rw [gregMonthsList_sum] at hr
    rcases hfl : (gYearRem n).2.2 with _ | _
    · rw [hfl] at hr
      simp at hr
      obtain ⟨_, hrb⟩ := hlf hfl
      omega
    · rw [hfl] at hr
      simp at hr
      omega
  have hdlen : d0 + 1 ≤ gregMonthLenB ((gYearRem n).2.2) (k + 1) := by
    rcases Nat.lt_or_ge k 11 with hk11 | hk11
    · have := hb (by rw [gregMonthsList_length]; exact hk11)
      rw [gregMonthsList_getD _ _ hk11] at this
      omega
    · have hke : k = 11 := by omega
      subst hke
      have := hd0 rfl
      unfold gregMonthLenB
      norm_num
      omega
  unfold gregFromDayNo
  rw [he]
  dsimp only
  refine ⟨?_, by omega, ?_⟩
  · simp only [gregValidB, Bool.and_eq_true, decide_eq_true_eq]
    refine ⟨⟨⟨⟨⟨by omega, by omega⟩, by omega⟩, by omega⟩, by omega⟩, ?_⟩
    unfold gregMonthLen
    rw [hleap, Nat.add_comm 1 k]
    omega
  · unfold gregPack
    rw [hleap]
    have hsum := gDaysBefore_eq_sum ((gYearRem n).2.2) (1 + k) (by omega) (by omega)
    have hm1 : 1 + k - 1 = k := by omega
    rw [hm1] at hsum
    have hstep : gDaysBefore (1 + k) + (if 2 < 1 + k ∧ (gYearRem n).2.2 = true then 1 else 0)
        + (d0 + 1 - 1) = (gYearRem n).2.1 := by
      rw [hsum]
      omega
    omega

/-- Jalali to Gregorian and back is the identity on the 1300-1500 window. -/
theorem jalali_roundtrip_core (y m d : Nat) (hy1 : 1300 ≤ y) (hy2 : y ≤ 1500)
    (hv : jalaliValidB y m d = true) :
    gregValidB (j2gTriple y m d).1 (j2gTriple y m d).2.1 (j2gTriple y m d).2.2 = true ∧
    1600 ≤ (j2gTriple y m d).1 ∧
    jalaliUnpack (gregPack (j2gTriple y m d).1 (j2gTriple y m d).2.1 (j2gTriple y m d).2.2 - 79)
      = (y, m, d) := by
  have hoffb : jDaysBefore m + (d - 1) ≤ 365 := by
    simp only [jalaliValidB, Bool.and_eq_true, decide_eq_true_eq] at hv
    obtain ⟨⟨⟨hm1, hm2⟩, hd1⟩, hd2⟩ := hv
    rcases le_or_lt m 6 with h6 | h6
    · have h31 : jalaliMonthLen y m ≤ 31 := by
        unfold jalaliMonthLen
        split_ifs <;> omega
      unfold jDaysBefore
      rw [if_pos (by omega)]
      omega
    · have h30 : jalaliMonthLen y m ≤ 30 := by
        unfold jalaliMonthLen
        rw [if_neg (by omega)]
        split_ifs <;> omega
      unfold jDaysBefore
      split_ifs <;> omega
  have hlo : 117322 ≤ jalaliPack y m d + 79 := by
    unfold jalaliPack
    omega
  have hhi : jalaliPack y m d + 79 ≤ 190740 := by
    unfold jalaliPack
    omega
  obtain ⟨hvB, h16, hpk⟩ := greg_from_to (jalaliPack y m d + 79) hlo hhi
  unfold j2gTriple
  refine ⟨hvB, h16, ?_⟩
  rw [hpk]
  have h79 : jalaliPack y m d + 79 - 79 = jalaliPack y m d := by omega
  rw [h79]
  exact jalali_unpack_pack y m d hy1 hy2 hv

/-- C8: for every calendar-valid Jalali triple with year in 1300-1500,
converting to Gregorian with `jalali_to_gregorian` and back with
`gregorian_to_jalali` yields the original triple. -/
theorem jalali_gregorian_roundtrip (y m d : Nat) (hy1 : 1300 ≤ y) (hy2 : y ≤ 1500)
    (hv : jalaliValidB y m d = true) :
    (jalali_to_gregorian y m d).bind (fun g => gregorian_to_jalali g.1 g.2.1 g.2.2)
      = some (y, m, d) := by
  unfold jalali_to_gregorian
  rw [if_pos ⟨by omega, hv⟩]
  obtain ⟨hvB, h16, hun⟩ := jalali_roundtrip_core y m d hy1 hy2 hv
  show gregorian_to_jalali (j2gTriple y m d).1 (j2gTriple y m d).2.1 (j2gTriple y m d).2.2
      = some (y, m, d)
  unfold gregorian_to_jalali
  rw [if_pos ⟨h16, hvB⟩]
  unfold g2jTriple
  rw [hun]

/-- Witness for C8 at the leap-year boundary date 1403/12/30. -/
theorem jalali_gregorian_roundtrip_witness :
    (jalali_to_gregorian 1403 12 30).bind (fun g => gregorian_to_jalali g.1 g.2.1 g.2.2)
      = some (1403, 12, 30) :=
  jalali_gregorian_roundtrip 1403 12 30 (by decide) (by decide) (by decide)

theorem is_jalali_date_iff (y m d : Nat) :
    is_jalali_date y m d = true ↔ (1300 ≤ y ∧ y ≤ 1500 ∧ jalaliValidB y m d = true) := by
  unfold is_jalali_date
  split_ifs with h
  · constructor
    · intro hf
      simp at hf
    · intro ⟨h1, h2, _⟩
      omega
  · constructor
    · intro hv
      exact ⟨by omega, by omega, hv⟩
    · intro ⟨_, _, hv⟩
      exact hv

/-- `resolveTriple` spelt with the explicit year-window and validity
condition in place of `_is_jalali_date`. -/
theorem resolveTriple_eq (y mo d h mi s : Nat) :
    resolveTriple y mo d h mi s =
      (if 1300 ≤ y ∧ y ≤ 1500 ∧ jalaliValidB y mo d = true then
        (jalali_to_gregorian y mo d).bind fun g => mkDatetime g.1 g.2.1 g.2.2 h mi s
      else mkDatetime y mo d h mi s) := by
  by_cases hj : 1300 ≤ y ∧ y ≤ 1500 ∧ jalaliValidB y mo d = true
  · rw [if_pos hj]
    unfold resolveTriple
    rw [if_pos ((is_jalali_date_iff y mo d).mpr hj)]
  · rw [if_neg hj]
    unfold resolveTriple
    rw [if_neg]
    intro hc
    exact hj ((is_jalali_date_iff y mo d).mp hc)

theorem mkDatetime_second (y m d h mi s : Nat) (dt : DateTime)
    (h : mkDatetime y m d h mi s = some dt) : dt.second = s := by
  unfold mkDatetime at h
  split_ifs at h
  cases h
  rfl

theorem resolveTriple_second (y mo d h mi s : Nat) (dt : DateTime)
    (h : resolveTriple y mo d h mi s = some dt) : dt.second = s := by
  unfold resolveTriple at h
  split_ifs at h
  · cases hg : jalali_to_gregorian y mo d with
    | none =>
      rw [hg] at h
      simp at h
    | some g =>
      rw [hg, Option.some_bind] at h
      exact mkDatetime_second _ _ _ _ _ _ _ h
  · exact mkDatetime_second _ _ _ _ _ _ _ h

/-- A match of the seconds-bearing pattern contains a match of the
seconds-free pattern at the same position, so when the first pattern
fails everywhere so does the second. -/
theorem tryP2At_none (l : List Char) (h : tryP1At l = none) : tryP2At l = none := by
  unfold tryP1At at h
  unfold tryP2At
  cases hd : matchDate l with
  | none => simp
  | some g =>
    rw [hd, Option.some_bind] at h
    simp only [Option.some_bind]
    cases ht : matchTimeHM g.2.2.2 with
    | none => simp
    | some t =>
      rw [ht] at h
      simp at h

theorem searchAt_none_mono {α β : Type} (f : List Char → Option α) (g : List Char → Option β)
    (hfg : ∀ l, f l = none → g l = none) :
    ∀ l, searchAt f l = none → searchAt g l = none := by
  intro l
  induction l with
  | nil =>
    intro h
    unfold searchAt at h ⊢
    exact hfg [] h
  | cons c rest ih =>
    intro h
    unfold searchAt at h ⊢
    cases hf : f (c :: rest) with
    | some a =>
      rw [hf] at h
      simp at h
    | none =>
      rw [hf] at h
      rw [hfg (c :: rest) hf]
      exact ih h

theorem parse_eq_empty (v : String) (hemp : preprocessDateText v = []) :
    parse_visit_date (some v) = none := by
  simp only [parse_visit_date]
  rw [if_pos hemp]

theorem parse_eq_p1 (v : String) (g : Nat × Nat × Nat × Nat × Nat)
    (hemp : ¬ preprocessDateText v = [])
    (h1 : searchAt tryP1At (preprocessDateText v) = some g) :
    parse_visit_date (some v) = resolveTriple g.1 g.2.1 g.2.2.1 g.2.2.2.1 g.2.2.2.2 0 := by
  simp only [parse_visit_date]
  rw [if_neg hemp, h1]

theorem parse_eq_p3 (v : String) (g : Nat × Nat × Nat)
    (hemp : ¬ preprocessDateText v = [])
    (h1 : searchAt tryP1At (preprocessDateText v) = none)
    (h2 : searchAt tryP2At (preprocessDateText v) = none)
    (h3 : searchAt tryP3At (preprocessDateText v) = some g) :
    parse_visit_date (some v) = resolveTriple g.1 g.2.1 g.2.2 0 0 0 := by
  simp only [parse_visit_date]
  rw [if_neg hemp, h1, h2, h3]

theorem parse_eq_none (v : String)
    (hemp : ¬ preprocessDateText v = [])
    (h1 : searchAt tryP1At (preprocessDateText v) = none)
    (h2 : searchAt tryP2At (preprocessDateText v) = none)
    (h3 : searchAt tryP3At (preprocessDateText v) = none) :
    parse_visit_date (some v) = none := by
  simp only [parse_visit_date]
  rw [if_neg hemp, h1, h2, h3]

/-- C10: every instant `parse_visit_date` returns carries a zero
seconds field: the `H:MM` pattern is tried before `H:MM:SS` and uses
substring search, so an explicit seconds component is never captured. -/
theorem parse_visit_date_second_zero (value : Option String) (dt : DateTime)
    (h : parse_visit_date value = some dt) : dt.second = 0 := by
  cases value with
  | none => simp [parse_visit_date] at h
  | some v =>
    by_cases hemp : preprocessDateText v = []
    · rw [parse_eq_empty v hemp] at h
      simp at h
    · cases h1 : searchAt tryP1At (preprocessDateText v) with
      | some g =>
        rw [parse_eq_p1 v g hemp h1] at h
        exact resolveTriple_second _ _ _ _ _ _ _ h
      | none =>
        have h2 := searchAt_none_mono tryP1At tryP2At tryP2At_none _ h1
        cases h3 : searchAt tryP3At (preprocessDateText v) with
        | some g =>
          rw [parse_eq_p3 v g hemp h1 h2 h3] at h
          exact resolveTriple_second _ _ _ _ _ _ _ h
        | none =>
          rw [parse_eq_none v hemp h1 h2 h3] at h
          simp at h

/-- Witness for C10 on a concrete date-with-seconds input. -/
theorem parse_visit_date_second_zero_witness :
    DateTime.second (DateTime.mk 2024 3 21 10 20 0) = 0 :=
  parse_visit_date_second_zero (some "1403/1/2 10:20:30")
    (DateTime.mk 2024 3 21 10 20 0) (by decide)

/-- C7: a parsed year/month/day triple is treated as Jalali exactly
when the year is in 1300-1500 and the triple is a calendar-valid
Jalali date, in which case it is converted to a Gregorian instant via
`jalali_to_gregorian`; any other triple is interpreted directly as
Gregorian.  First conjunct: date-with-time texts; second conjunct:
date-only texts. -/
theorem parse_visit_date_jalali_rule :
    (∀ (v : String) (y mo d h mi : Nat),
      searchAt tryP1At (preprocessDateText v) = some (y, mo, d, h, mi) →
      parse_visit_date (some v) =
        (if 1300 ≤ y ∧ y ≤ 1500 ∧ jalaliValidB y mo d = true then
          (jalali_to_gregorian y mo d).bind fun g => mkDatetime g.1 g.2.1 g.2.2 h mi 0
        else mkDatetime y mo d h mi 0)) ∧
    (∀ (v : String) (y mo d : Nat),
      searchAt tryP1At (preprocessDateText v) = none →
      searchAt tryP3At (preprocessDateText v) = some (y, mo, d) →
      parse_visit_date (some v) =
        (if 1300 ≤ y ∧ y ≤ 1500 ∧ jalaliValidB y mo d = true then
          (jalali_to_gregorian y mo d).bind fun g => mkDatetime g.1 g.2.1 g.2.2 0 0 0
        else mkDatetime y mo d 0 0 0)) := by
  constructor
  · intro v y mo d h mi h1
    have hemp : ¬ preprocessDateText v = [] := by
      intro he
      rw [he] at h1
      unfold searchAt at h1
      rw [(by decide : tryP1At ([] : List Char) = none)] at h1
      simp at h1
    rw [parse_eq_p1 v (y, mo, d, h, mi) hemp h1]
    exact resolveTriple_eq y mo d h mi 0
  · intro v y mo d h1 h3
    have hemp : ¬ preprocessDateText v = [] := by
      intro he
      rw [he] at h3
      unfold searchAt at h3
      rw [(by decide : tryP3At ([] : List Char) = none)] at h3
      simp at h3
    rw [parse_eq_p3 v (y, mo, d) hemp h1
      (searchAt_none_mono tryP1At tryP2At tryP2At_none _ h1) h3]
    exact resolveTriple_eq y mo d 0 0 0

/-- Witness for C7 on a Jalali date-only input and a Gregorian
date-with-time input. -/
theorem parse_visit_date_jalali_rule_witness :
    parse_visit_date (some "1403/2/3") =
      (if 1300 ≤ 1403 ∧ 1403 ≤ 1500 ∧ jalaliValidB 1403 2 3 = true then
        (jalali_to_gregorian 1403 2 3).bind fun g => mkDatetime g.1 g.2.1 g.2.2 0 0 0
      else mkDatetime 1403 2 3 0 0 0) ∧
    parse_visit_date (some "2024/5/6 10:20") =
      (if 1300 ≤ 2024 ∧ 2024 ≤ 1500 ∧ jalaliValidB 2024 5 6 = true then
        (jalali_to_gregorian 2024 5 6).bind fun g => mkDatetime g.1 g.2.1 g.2.2 10 20 0
      else mkDatetime 2024 5 6 10 20 0) :=
  ⟨parse_visit_date_jalali_rule.2 "1403/2/3" 1403 2 3 (by decide) (by decide),
   parse_visit_date_jalali_rule.1 "2024/5/6 10:20" 2024 5 6 10 20 (by decide)⟩

theorem addLookup_of_lookup_none (tags : List String) (m : List (String × String))
    (v : Option String) (h : lookupTag m (String.mk (lowerL (normFarsiL v))) = none) :
    addLookup tags m v = tags := by
  unfold addLookup
  rw [h]
  split_ifs <;> rfl

/-- C9: for a record whose status is "چاپ نوبت" and whose
appointment-type and clinic match no lookup entry, `build_tags`
returns exactly "noor_hospital_queue,patient,showup_patient," — the
two baseline tags, then the status tag, comma-joined with a trailing
comma. -/
theorem build_tags_status_rule (a c : Option String)
    (ha : lookupTag APPOINTMENT_TYPE_TAG_MAP (String.mk (lowerL (normFarsiL a))) = none)
    (hc : lookupTag CLINIC_TAG_MAP (String.mk (lowerL (normFarsiL c))) = none) :
    build_tags (some "چاپ نوبت") a c = "noor_hospital_queue,patient,showup_patient," := by
  unfold build_tags
  rw [addLookup_of_lookup_none _ _ _ hc, addLookup_of_lookup_none _ _ _ ha]
  decide

/-- Witness for C9 with absent appointment-type and clinic fields. -/
theorem build_tags_status_rule_witness :
    build_tags (some "چاپ نوبت") none none
      = "noor_hospital_queue,patient,showup_patient," :=
  build_tags_status_rule none none (by decide) (by decide)

-- ===== deduplication engine lemmas =====

theorem completeFrom_national_id (mr r : Rec) :
    (completeFrom mr r).national_id = mr.national_id := rfl

theorem orderedInsertB_perm (a : Rec) (l : List Rec) :
    (orderedInsertB a l).Perm (a :: l) := by
  induction l with
  | nil => exact List.Perm.refl _
  | cons b t ih =>
    rw [orderedInsertB]
    cases h : moreRecentB a b with
    | true => simp
    | false =>
      simp only [Bool.false_eq_true, if_false]
      exact (ih.cons b).trans (List.Perm.swap a b t)

theorem sortByDateDesc_perm (l : List Rec) : (sortByDateDesc l).Perm l := by
  induction l with
  | nil => exact List.Perm.refl _
  | cons a t ih =>
    rw [sortByDateDesc]
    exact (orderedInsertB_perm a (sortByDateDesc t)).trans (ih.cons a)

theorem resolveSorted_isSome (l : List Rec) (h : l ≠ []) :
    (resolveSorted l).isSome = true := by
  cases l with
  | nil => exact absurd rfl h
  | cons a t =>
    simp only [resolveSorted]
    by_cases hc : is_name_complete a.first_name a.last_name = true
    · rw [if_pos hc]; rfl
    · rw [if_neg hc]
      cases hf : (a :: t).find? fun r => is_name_complete r.first_name r.last_name with
      | none => rfl
      | some r => rfl

theorem resolveSorted_id (l : List Rec) (k : String) (x : Rec ⊕ Rec)
    (hall : ∀ r ∈ l, r.national_id = some k)
    (h : resolveSorted l = some x) :
    Sum.elim Rec.national_id Rec.national_id x = some k := by
  cases l with
  | nil => simp [resolveSorted] at h
  | cons a t =>
    simp only [resolveSorted] at h
    by_cases hc : is_name_complete a.first_name a.last_name = true
    · rw [if_pos hc] at h
      have h2 := Option.some.inj h
      subst h2
      exact hall a (List.mem_cons_self a t)
    · rw [if_neg hc] at h
      cases hf : (a :: t).find? (fun r => is_name_complete r.first_name r.last_name) with
      | some r =>
        rw [hf] at h
        have h2 := Option.some.inj h
        subst h2
        show (completeFrom a r).national_id = some k
        rw [completeFrom_national_id]
        exact hall a (List.mem_cons_self a t)
      | none =>
        rw [hf] at h
        have h2 := Option.some.inj h
        subst h2
        exact hall a (List.mem_cons_self a t)

theorem groupOf_id (df : List Rec) (k : String) :
    ∀ r ∈ groupOf df k, r.national_id = some k := by
  intro r hr
  exact of_decide_eq_true (List.mem_filter.1 hr).2

theorem groupOf_ne_nil (df : List Rec) (k : String) (hk : k ∈ groupKeys df) :
    groupOf df k ≠ [] := by
  rw [groupKeys] at hk
  obtain ⟨r, hr, hid⟩ := List.mem_filterMap.1 (List.mem_dedup.1 hk)
  exact List.ne_nil_of_mem (List.mem_filter.2 ⟨hr, decide_eq_true hid⟩)

theorem resolveGroup_key (df : List Rec) (k : String) (hk : k ∈ groupKeys df) :
    ∃ x, resolveGroup df k = some x ∧
      Sum.elim Rec.national_id Rec.national_id x = some k := by
  have hne : sortByDateDesc (groupOf df k) ≠ [] := by
    intro hnil
    have hp := sortByDateDesc_perm (groupOf df k)
    rw [hnil] at hp
    exact groupOf_ne_nil df k hk hp.symm.eq_nil
  obtain ⟨x, hx⟩ := Option.isSome_iff_exists.1 (resolveSorted_isSome _ hne)
  refine ⟨x, hx, resolveSorted_id _ k x ?_ hx⟩
  intro r hr
  exact groupOf_id df k r ((sortByDateDesc_perm (groupOf df k)).mem_iff.1 hr)

theorem filterMap_resolve_perm (df : List Rec) (ks : List String)
    (h : ∀ k ∈ ks, ∃ x, resolveGroup df k = some x ∧
          Sum.elim Rec.national_id Rec.national_id x = some k) :
    (((ks.filterMap fun k => match resolveGroup df k with
        | some (Sum.inl r) => some r
        | _ => none).map Rec.national_id) ++
      ((ks.filterMap fun k => match resolveGroup df k with
        | some (Sum.inr r) => some r
        | _ => none).map Rec.national_id)).Perm (ks.map some) := by
  induction ks with
  | nil => simp
  | cons k ks ih =>
    obtain ⟨x, hx, hid⟩ := h k (List.mem_cons_self k ks)
    have ih2 := ih fun k2 hk2 => h k2 (List.mem_cons_of_mem k hk2)
    cases x with
    | inl r =>
      simp only [Sum.elim_inl] at hid
      simp only [List.filterMap_cons, hx, List.map_cons, List.cons_append]
      rw [hid]
      exact ih2.cons _
    | inr r =>
      simp only [Sum.elim_inr] at hid
      simp only [List.filterMap_cons, hx, List.map_cons]
      rw [hid]
      exact List.perm_middle.trans (ih2.cons _)

theorem dedup_ids_perm (df : List Rec) :
    (((enhanced_deduplication df).1 ++ (enhanced_deduplication df).2).map
        Rec.national_id).Perm ((groupKeys df).map some) := by
  rw [List.map_append]
  exact filterMap_resolve_perm df (groupKeys df) (fun k hk => resolveGroup_key df k hk)

theorem groupKeys_map_some_nodup (df : List Rec) : ((groupKeys df).map some).Nodup := by
  rw [groupKeys]
  exact List.Nodup.map (Option.some_injective String) (List.nodup_dedup _)

theorem filter_partition_perm (p q w : Rec → Bool) (S I : List Rec) :
    ((((S.filter fun r => !p r).filter q).filter fun r => !w r) ++
      (((S.filter fun r => !p r).filter q).filter w) ++
      ((S.filter fun r => !p r).filter fun r => !q r) ++
      S.filter p ++ I).Perm (S ++ I) := by
  rw [← Multiset.coe_eq_coe]
  have e1 := Multiset.coe_eq_coe.2
    (List.filter_append_perm w ((S.filter fun r => !p r).filter q))
  have e2 := Multiset.coe_eq_coe.2 (List.filter_append_perm q (S.filter fun r => !p r))
  have e3 := Multiset.coe_eq_coe.2 (List.filter_append_perm p S)
  simp only [← Multiset.coe_add] at e1 e2 e3 ⊢
  rw [← e3, ← e2, ← e1]
  abel

theorem countP_two_of_mem {l : List Rec} {p : Rec → Bool} {a b : Rec}
    (ha : a ∈ l) (hb : b ∈ l) (hab : a ≠ b) (hpa : p a = true) (hpb : p b = true) :
    2 ≤ l.countP p := by
  obtain ⟨l1, l2, rfl⟩ := List.append_of_mem ha
  have hb2 : b ∈ l1 ++ l2 := by
    rcases List.mem_append.1 hb with h | h
    · exact List.mem_append.2 (Or.inl h)
    · rcases List.mem_cons.1 h with h | h
      · exact absurd h.symm hab
      · exact List.mem_append.2 (Or.inr h)
  have h1 : 0 < (l1 ++ l2).countP p := List.countP_pos_iff.2 ⟨b, hb2, hpb⟩
  rw [List.countP_append] at h1
  rw [List.countP_append, List.countP_cons, hpa, if_pos rfl]
  omega

theorem recsOf_filter_eq (glk : String → Option String) (rows : List RawRow) :
    recsOf glk (rows.filter fun row => (clean_national_id row.national_id_raw).isSome) =
      (recsOf glk rows).filter fun r => r.national_id.isSome := by
  rw [recsOf, recsOf, List.filter_map]
  rfl

theorem filterMap_id_filter_isSome (df : List Rec) :
    (df.filter fun r => r.national_id.isSome).filterMap Rec.national_id =
      df.filterMap Rec.national_id := by
  induction df with
  | nil => rfl
  | cons a t ih =>
    rw [List.filter_cons]
    cases h : a.national_id with
    | none =>
      rw [if_neg (by simp [h])]
      simp only [List.filterMap_cons, h]
      exact ih
    | some v =>
      rw [if_pos (by simp [h])]
      simp only [List.filterMap_cons, h]
      rw [ih]

theorem groupOf_filter_isSome (df : List Rec) (k : String) :
    groupOf (df.filter fun r => r.national_id.isSome) k = groupOf df k := by
  rw [groupOf, groupOf, List.filter_filter]
  refine List.filter_congr ?_
  intro x _
  cases h : x.national_id with
  | none => simp [h]
  | some v => simp [h]

theorem enhanced_dedup_filter (df : List Rec) :
    enhanced_deduplication (df.filter fun r => r.national_id.isSome) =
      enhanced_deduplication df := by
  have hkeys : groupKeys (df.filter fun r => r.national_id.isSome) = groupKeys df := by
    rw [groupKeys, groupKeys, filterMap_id_filter_isSome]
  have hres : ∀ k, resolveGroup (df.filter fun r => r.national_id.isSome) k =
      resolveGroup df k := by
    intro k
    rw [resolveGroup, resolveGroup, groupOf_filter_isSome]
  rw [enhanced_deduplication, enhanced_deduplication, hkeys]
  simp only [hres]

/-- C5: for a two-record identity group where the more recent record
`a` has an incomplete name and the older record `b` a complete one,
`_enhanced_deduplication` emits exactly one accepted survivor (and no
incomplete-name record), regardless of input order: the most recent
record with its first, last and full name replaced from the complete
record. -/
theorem dedup_name_completion (a b : Rec) (k : String) (ta tb : DateTime)
    (hka : a.national_id = some k) (hkb : b.national_id = some k)
    (hda : a.visit_date_parsed = some ta) (hdb : b.visit_date_parsed = some tb)
    (hlt : dtKeyOf tb < dtKeyOf ta)
    (hainc : is_name_complete a.first_name a.last_name = false)
    (hbc : is_name_complete b.first_name b.last_name = true) :
    enhanced_deduplication [a, b] = ([completeFrom a b], []) ∧
    enhanced_deduplication [b, a] = ([completeFrom a b], []) := by
  have hmab : moreRecentB a b = true := by
    simp only [moreRecentB, hda, hdb, decide_eq_true_eq]
    exact le_of_lt hlt
  have hmba : moreRecentB b a = false := by
    simp only [moreRecentB, hda, hdb, decide_eq_false_iff_not]
    exact not_le_of_lt hlt
  have hdk : ([k, k] : List String).dedup = [k] := by
    rw [List.dedup_cons_of_mem (List.mem_singleton.2 rfl)]
    exact List.dedup_eq_self.2 (List.nodup_singleton k)
  have hfm1 : [a, b].filterMap Rec.national_id = [k, k] := by
    simp [List.filterMap_cons, hka, hkb]
  have hfm2 : [b, a].filterMap Rec.national_id = [k, k] := by
    simp [List.filterMap_cons, hka, hkb]
  have hkeys1 : groupKeys [a, b] = [k] := by
    rw [groupKeys, hfm1, hdk]
  have hkeys2 : groupKeys [b, a] = [k] := by
    rw [groupKeys, hfm2, hdk]
  have hg1 : groupOf [a, b] k = [a, b] := by
    simp [groupOf, List.filter_cons, hka, hkb]
  have hg2 : groupOf [b, a] k = [b, a] := by
    simp [groupOf, List.filter_cons, hka, hkb]
  have hs1 : sortByDateDesc [a, b] = [a, b] := by
    simp [sortByDateDesc, orderedInsertB, hmab]
  have hs2 : sortByDateDesc [b, a] = [a, b] := by
    simp [sortByDateDesc, orderedInsertB, hmba]
  have hfind : List.find? (fun r => is_name_complete r.first_name r.last_name) [a, b] =
      some b := by
    rw [List.find?_cons_of_neg _ (by simp [hainc])]
    exact List.find?_cons_of_pos _ hbc
  have hres1 : resolveSorted [a, b] = some (Sum.inl (completeFrom a b)) := by
    simp only [resolveSorted]
    rw [if_neg (by simp [hainc]), hfind]
  have hrg1 : resolveGroup [a, b] k = some (Sum.inl (completeFrom a b)) := by
    rw [resolveGroup, hg1, hs1]
    exact hres1
  have hrg2 : resolveGroup [b, a] k = some (Sum.inl (completeFrom a b)) := by
    rw [resolveGroup, hg2, hs2]
    exact hres1
  constructor
  · rw [enhanced_deduplication, hkeys1]
    simp [List.filterMap_cons, hrg1]
  · rw [enhanced_deduplication, hkeys2]
    simp [List.filterMap_cons, hrg2]

/-- Witness for C5: the incomplete more-recent record `c5a` and the
complete older record `c5b` collapse, in both input orders, to the
single survivor carrying `c5a`'s fields and `c5b`'s name. -/
theorem dedup_name_completion_witness :
    enhanced_deduplication [c5a, c5b] = ([completeFrom c5a c5b], []) ∧
    enhanced_deduplication [c5b, c5a] = ([completeFrom c5a c5b], []) :=
  dedup_name_completion c5a c5b "11112222" (DateTime.mk 2024 5 6 10 0 0)
    (DateTime.mk 2024 5 1 10 0 0) rfl rfl rfl rfl (by decide) (by decide) (by decide)

/-- C6: two distinct accepted rows sharing a present cleaned phone
number both land in the duplicate-phone output and are removed from
the cleaned output, while an accepted row with an absent phone always
stays in the cleaned output and never enters the duplicate-phone
output. -/
theorem duplicate_phone_rule (glk : String → Option String) (rows : List RawRow)
    (r s : Rec)
    (hr : r ∈ acceptedRows glk rows) (hs : s ∈ acceptedRows glk rows)
    (hrs : r ≠ s) (hmr : r.mobile.isSome = true) (hmeq : r.mobile = s.mobile) :
    (r ∈ (clean_dataframe glk rows).duplicate_phone ∧
      r ∉ (clean_dataframe glk rows).cleaned) ∧
    ∀ t ∈ acceptedRows glk rows, t.mobile = none →
      t ∈ (clean_dataframe glk rows).cleaned ∧
        t ∉ (clean_dataframe glk rows).duplicate_phone := by
  have hdup : phoneDupB (acceptedRows glk rows) r = true := by
    rw [phoneDupB, hmr, Bool.true_and]
    exact decide_eq_true
      (countP_two_of_mem hr hs hrs (decide_eq_true rfl) (decide_eq_true hmeq.symm))
  refine ⟨⟨?_, ?_⟩, ?_⟩
  · show r ∈ duplicatePhoneBucket glk rows
    rw [duplicatePhoneBucket]
    exact List.mem_filter.2 ⟨hr, hdup⟩
  · show r ∉ cleanedBucket glk rows
    rw [cleanedBucket]
    intro hmem
    simp only [List.mem_filter] at hmem
    have h2 := hmem.2
    rw [hdup] at h2
    exact Bool.false_ne_true h2
  · intro t ht hmob
    have hf : phoneDupB (acceptedRows glk rows) t = false := by
      rw [phoneDupB, hmob]
      rfl
    constructor
    · show t ∈ cleanedBucket glk rows
      rw [cleanedBucket]
      refine List.mem_filter.2 ⟨ht, ?_⟩
      show (!phoneDupB (acceptedRows glk rows) t) = true
      rw [hf]
      rfl
    · show t ∉ duplicatePhoneBucket glk rows
      rw [duplicatePhoneBucket]
      intro hmem
      have h2 := (List.mem_filter.1 hmem).2
      rw [hf] at h2
      exact Bool.false_ne_true h2

/-- Witness for C6: the two accepted rows built from `wRow1` and
`wRow2` share the phone "09123456789" and are both diverted. -/
theorem duplicate_phone_rule_witness :
    ((recOf glkNone wRow1 ∈ (clean_dataframe glkNone [wRow1, wRow2]).duplicate_phone ∧
      recOf glkNone wRow1 ∉ (clean_dataframe glkNone [wRow1, wRow2]).cleaned) ∧
     ∀ t ∈ acceptedRows glkNone [wRow1, wRow2], t.mobile = none →
       t ∈ (clean_dataframe glkNone [wRow1, wRow2]).cleaned ∧
         t ∉ (clean_dataframe glkNone [wRow1, wRow2]).duplicate_phone) :=
  duplicate_phone_rule glkNone [wRow1, wRow2] (recOf glkNone wRow1) (recOf glkNone wRow2)
    (by decide) (by decide) (by decide) (by decide) (by decide)

/-- C2 counterexample: the row `cRow2` carries the identity number
"0000000000", which `clean_national_id` rejects; contrary to the
claim, the row is not routed to the excluded output — it vanishes from
all four outputs of `clean_dataframe`. -/
theorem absent_id_vanishes_counterexample :
    clean_national_id cRow2.national_id_raw = none ∧
    (clean_dataframe glkNone [cRow2]).excluded = [] ∧
    clean_dataframe glkNone [cRow2] = Buckets.mk [] [] [] [] := by decide

/-- C2 (amended): records whose identity number is absent after
validation are silently dropped before grouping: `clean_dataframe`
returns exactly the outputs it would produce had the absent-identity
rows been deleted from the input. -/
theorem clean_dataframe_absent_id_filter (glk : String → Option String)
    (rows : List RawRow) :
    clean_dataframe glk rows =
      clean_dataframe glk
        (rows.filter fun row => (clean_national_id row.national_id_raw).isSome) := by
  have h : enhanced_deduplication
        (recsOf glk (rows.filter fun row =>
          (clean_national_id row.national_id_raw).isSome)) =
      enhanced_deduplication (recsOf glk rows) := by
    rw [recsOf_filter_eq, enhanced_dedup_filter]
  simp only [clean_dataframe, cleanedBucket, excludedBucket, duplicatePhoneBucket,
    acceptedRows, nameValidRows, survivorsOf, incompleteOf, h]

/-- C1 counterexample: the input row `cRow1` (identity number "123",
rejected by validation) appears in none of the four outputs of
`clean_dataframe`, and the documented required-field drop set is empty
too — the row is silently lost, refuting the claimed partition of the
input rows. -/
theorem bucket_partition_counterexample :
    clean_dataframe glkNone [cRow1] = Buckets.mk [] [] [] [] ∧
    (nameValidRows glkNone [cRow1]).filter (fun r => !requiredOkB r) = [] := by decide

/-- C1 (amended): the partition holds at the identity level, not the
row level: the four output tables of `clean_dataframe`, together with
the records removed by the required-field drop path, carry exactly one
record for each distinct validated identity number — no identity is
lost or duplicated across buckets.  Input rows whose identity number
fails validation, and extra rows of a shared identity, are not
accounted for. -/
theorem bucket_partition_amended (glk : String → Option String) (rows : List RawRow) :
    ((((clean_dataframe glk rows).cleaned ++ (clean_dataframe glk rows).duplicate_phone ++
          (nameValidRows glk rows).filter (fun r => !requiredOkB r) ++
          (clean_dataframe glk rows).excluded ++
          (clean_dataframe glk rows).incomplete_name).map Rec.national_id).Perm
        ((groupKeys (recsOf glk rows)).map some)) ∧
    (((clean_dataframe glk rows).cleaned ++ (clean_dataframe glk rows).duplicate_phone ++
        (nameValidRows glk rows).filter (fun r => !requiredOkB r) ++
        (clean_dataframe glk rows).excluded ++
        (clean_dataframe glk rows).incomplete_name).map Rec.national_id).Nodup := by
  have hp : ((clean_dataframe glk rows).cleaned ++ (clean_dataframe glk rows).duplicate_phone ++
        (nameValidRows glk rows).filter (fun r => !requiredOkB r) ++
        (clean_dataframe glk rows).excluded ++
        (clean_dataframe glk rows).incomplete_name).Perm
      ((enhanced_deduplication (recsOf glk rows)).1 ++
        (enhanced_deduplication (recsOf glk rows)).2) := by
    simp only [clean_dataframe, cleanedBucket, duplicatePhoneBucket, excludedBucket,
      acceptedRows, nameValidRows, survivorsOf, incompleteOf]
    exact filter_partition_perm invalidNameMask requiredOkB
      (phoneDupB ((((enhanced_deduplication (recsOf glk rows)).1).filter
          (fun r => !invalidNameMask r)).filter requiredOkB))
      ((enhanced_deduplication (recsOf glk rows)).1)
      ((enhanced_deduplication (recsOf glk rows)).2)
  have hids := (hp.map Rec.national_id).trans (dedup_ids_perm (recsOf glk rows))
  exact ⟨hids, hids.symm.nodup (groupKeys_map_some_nodup (recsOf glk rows))⟩
